import Mathlib

/-!
Verification of the mongo-import-export data-migration pipeline.

This file gives a shallow embedding of the repository's core components —
the extended-JSON value codec (`src/mongodb/convert.ts`), the import
pipeline and its batch writer (`src/mongodb/import.ts`), the export
pipeline (`src/mongodb/export.ts`) and the validators
(`src/utils/validate.ts`) — and proves or refutes the specified
properties about them.

JavaScript runtime values are modelled by the inductive type `JSValue`;
`Date` objects are modelled by their epoch-millisecond time value, with
`toISOString` and the ECMAScript date-time string parse implemented over
the proleptic Gregorian calendar exactly as the ECMAScript specification
defines them (DayFromYear, YearFromTime, MonthFromTime, MakeDay).
-/

/- ## Calendar model (ECMAScript style, proleptic Gregorian) -/

/-- ECMAScript DayFromYear: days from 1970-01-01 to the start of year `y`. -/
def dayFromYear (y : Int) : Int :=
  365 * (y - 1970) + (y - 1969) / 4 - (y - 1901) / 100 + (y - 1601) / 400

/-- Gregorian leap-year predicate. -/
def isLeap (y : Int) : Prop := (y % 4 = 0 ∧ y % 100 ≠ 0) ∨ y % 400 = 0

instance (y : Int) : Decidable (isLeap y) := by unfold isLeap; infer_instance

/-- 1 in a leap year, 0 otherwise. -/
def leapBit (y : Int) : Int := if isLeap y then 1 else 0

/-- ECMAScript YearFromTime at day granularity: the largest `y` with
`dayFromYear y ≤ day`, computed by an estimate plus two upward adjustment
steps. -/
def yearFromDay (day : Int) : Int :=
  let y0 : Int := 1970 + (400 * day) / 146097 - 1
  let y1 : Int := if dayFromYear (y0 + 1) ≤ day then y0 + 1 else y0
  if dayFromYear (y1 + 1) ≤ day then y1 + 1 else y1

/-- Month (1-12) and day-of-month from a day-within-year, given the leap
bit `L`; ECMAScript MonthFromTime / DateFromTime. -/
def monthAndDate (L dwy : Int) : Int × Int :=
  if dwy < 31 then (1, dwy + 1)
  else if dwy < 59 + L then (2, dwy - 30)
  else if dwy < 90 + L then (3, dwy - 58 - L)
  else if dwy < 120 + L then (4, dwy - 89 - L)
  else if dwy < 151 + L then (5, dwy - 119 - L)
  else if dwy < 181 + L then (6, dwy - 150 - L)
  else if dwy < 212 + L then (7, dwy - 180 - L)
  else if dwy < 243 + L then (8, dwy - 211 - L)
  else if dwy < 273 + L then (9, dwy - 242 - L)
  else if dwy < 304 + L then (10, dwy - 272 - L)
  else if dwy < 334 + L then (11, dwy - 303 - L)
  else (12, dwy - 333 - L)

/-- Day-within-year at which month `m` starts, given the leap bit `L`. -/
def monthStart (L m : Int) : Int :=
  if m = 1 then 0 else if m = 2 then 31 else if m = 3 then 59 + L
  else if m = 4 then 90 + L else if m = 5 then 120 + L else if m = 6 then 151 + L
  else if m = 7 then 181 + L else if m = 8 then 212 + L else if m = 9 then 243 + L
  else if m = 10 then 273 + L else if m = 11 then 304 + L else 334 + L

/-- Number of days in month `m` of year `y`. -/
def daysInMonth (y m : Int) : Int :=
  if m = 2 then 28 + leapBit y
  else if m = 4 ∨ m = 6 ∨ m = 9 ∨ m = 11 then 30 else 31

/-- ECMAScript MakeDay: day number of year/month/day. -/
def makeDay (y m d : Int) : Int :=
  dayFromYear y + monthStart (leapBit y) m + d - 1

/-- Calendar date (year, month, day) of a day number. -/
def civilFromDay (day : Int) : Int × Int × Int :=
  let y := yearFromDay day
  let md := monthAndDate (leapBit y) (day - dayFromYear y)
  (y, md.1, md.2)

theorem leapBit_cases (y : Int) : leapBit y = 0 ∨ leapBit y = 1 := by
  unfold leapBit; split <;> omega

theorem dayFromYear_step (y : Int) :
    dayFromYear (y + 1) = dayFromYear y + 365 + leapBit y := by
  unfold dayFromYear leapBit
  split <;> rename_i h <;> unfold isLeap at h <;> omega

theorem yearFromDay_lb (day : Int) :
    dayFromYear (1970 + (400 * day) / 146097 - 1) ≤ day := by
  unfold dayFromYear
  omega

theorem yearFromDay_ub (day : Int) :
    day < dayFromYear (1970 + (400 * day) / 146097 - 1 + 3) := by
  unfold dayFromYear
  omega

theorem yearFromDay_spec (day : Int) :
    dayFromYear (yearFromDay day) ≤ day ∧ day < dayFromYear (yearFromDay day + 1) := by
  have lb := yearFromDay_lb day
  have ub := yearFromDay_ub day
  simp only [yearFromDay]
  split_ifs <;> unfold dayFromYear at * <;> constructor <;> omega

theorem monthAndDate_spec (L dwy m d : Int) (hL : L = 0 ∨ L = 1)
    (h0 : 0 ≤ dwy) (h1 : dwy ≤ 364 + L) (hmd : monthAndDate L dwy = (m, d)) :
    1 ≤ m ∧ m ≤ 12 ∧ 1 ≤ d ∧
      monthStart L m + d - 1 = dwy ∧
      (m = 2 → d ≤ 28 + L) ∧ (m ≠ 2 → d ≤ 31) ∧
      ((m = 4 ∨ m = 6 ∨ m = 9 ∨ m = 11) → d ≤ 30) := by
  unfold monthAndDate at hmd
  by_cases c1 : dwy < 31
  · rw [if_pos c1] at hmd
    injection hmd with hm hd; subst hm; subst hd; simp only [monthStart]; norm_num; omega
  rw [if_neg c1] at hmd
  by_cases c2 : dwy < 59 + L
  · rw [if_pos c2] at hmd
    injection hmd with hm hd; subst hm; subst hd; simp only [monthStart]; norm_num; omega
  rw [if_neg c2] at hmd
  by_cases c3 : dwy < 90 + L
  · rw [if_pos c3] at hmd
    injection hmd with hm hd; subst hm; subst hd; simp only [monthStart]; norm_num; omega
  rw [if_neg c3] at hmd
  by_cases c4 : dwy < 120 + L
  · rw [if_pos c4] at hmd
    injection hmd with hm hd; subst hm; subst hd; simp only [monthStart]; norm_num; omega
  rw [if_neg c4] at hmd
  by_cases c5 : dwy < 151 + L
  · rw [if_pos c5] at hmd
    injection hmd with hm hd; subst hm; subst hd; simp only [monthStart]; norm_num; omega
  rw [if_neg c5] at hmd
  by_cases c6 : dwy < 181 + L
  · rw [if_pos c6] at hmd
    injection hmd with hm hd; subst hm; subst hd; simp only [monthStart]; norm_num; omega
  rw [if_neg c6] at hmd
  by_cases c7 : dwy < 212 + L
  · rw [if_pos c7] at hmd
    injection hmd with hm hd; subst hm; subst hd; simp only [monthStart]; norm_num; omega
  rw [if_neg c7] at hmd
  by_cases c8 : dwy < 243 + L
  · rw [if_pos c8] at hmd
    injection hmd with hm hd; subst hm; subst hd; simp only [monthStart]; norm_num; omega
  rw [if_neg c8] at hmd
  by_cases c9 : dwy < 273 + L
  · rw [if_pos c9] at hmd
    injection hmd with hm hd; subst hm; subst hd; simp only [monthStart]; norm_num; omega
  rw [if_neg c9] at hmd
  by_cases c10 : dwy < 304 + L
  · rw [if_pos c10] at hmd
    injection hmd with hm hd; subst hm; subst hd; simp only [monthStart]; norm_num; omega
  rw [if_neg c10] at hmd
  by_cases c11 : dwy < 334 + L
  · rw [if_pos c11] at hmd
    injection hmd with hm hd; subst hm; subst hd; simp only [monthStart]; norm_num; omega
  rw [if_neg c11] at hmd
  injection hmd with hm hd; subst hm; subst hd; simp only [monthStart]; norm_num; omega

theorem makeDay_civilFromDay (day : Int) :
    makeDay (civilFromDay day).1 (civilFromDay day).2.1 (civilFromDay day).2.2 = day := by
  obtain ⟨hlb, hub⟩ := yearFromDay_spec day
  have hstep := dayFromYear_step (yearFromDay day)
  have hLB := leapBit_cases (yearFromDay day)
  obtain ⟨m, d, hmd⟩ : ∃ m d,
      monthAndDate (leapBit (yearFromDay day)) (day - dayFromYear (yearFromDay day)) = (m, d) :=
    ⟨_, _, rfl⟩
  have hspec := monthAndDate_spec _ _ m d hLB (by omega) (by omega) hmd
  simp only [civilFromDay, makeDay, hmd]
  omega

theorem civilFromDay_valid (day : Int) :
    1 ≤ (civilFromDay day).2.1 ∧ (civilFromDay day).2.1 ≤ 12 ∧ 1 ≤ (civilFromDay day).2.2 ∧
      (civilFromDay day).2.2 ≤ daysInMonth (civilFromDay day).1 (civilFromDay day).2.1 := by
  obtain ⟨hlb, hub⟩ := yearFromDay_spec day
  have hstep := dayFromYear_step (yearFromDay day)
  have hLB := leapBit_cases (yearFromDay day)
  obtain ⟨m, d, hmd⟩ : ∃ m d,
      monthAndDate (leapBit (yearFromDay day)) (day - dayFromYear (yearFromDay day)) = (m, d) :=
    ⟨_, _, rfl⟩
  have hspec := monthAndDate_spec _ _ m d hLB (by omega) (by omega) hmd
  simp only [civilFromDay, daysInMonth, hmd]
  split_ifs <;> omega

theorem yearFromDay_range (day : Int) (h0 : -100000000 ≤ day) (h1 : day ≤ 100000000) :
    -271821 ≤ yearFromDay day ∧ yearFromDay day ≤ 275760 := by
  obtain ⟨hlb, hub⟩ := yearFromDay_spec day
  unfold dayFromYear at hlb hub
  omega

/- ## Digit and ISO-8601 string layer -/

/-- The decimal digit character for `n < 10`. -/
def digCh (n : Nat) : Char := Char.ofNat (48 + n)

/-- Numeric value of a digit character. -/
def digVal (c : Char) : Nat := c.toNat - 48

def pad2 (n : Nat) : List Char := [digCh (n / 10), digCh (n % 10)]

def pad3 (n : Nat) : List Char := [digCh (n / 100), digCh (n / 10 % 10), digCh (n % 10)]

def pad4 (n : Nat) : List Char :=
  [digCh (n / 1000), digCh (n / 100 % 10), digCh (n / 10 % 10), digCh (n % 10)]

def pad6 (n : Nat) : List Char :=
  [digCh (n / 100000), digCh (n / 10000 % 10), digCh (n / 1000 % 10), digCh (n / 100 % 10),
   digCh (n / 10 % 10), digCh (n % 10)]

/-- Year part of `toISOString`: four digits for years 0000-9999, otherwise
the ECMAScript expanded form: a sign and six digits. -/
def yearChars (y : Int) : List Char :=
  if 0 ≤ y ∧ y ≤ 9999 then pad4 y.toNat
  else if y < 0 then '-' :: pad6 (-y).toNat
  else '+' :: pad6 y.toNat

/-- Character list of `Date.prototype.toISOString` of a time value `ms`
(epoch milliseconds): `YYYY-MM-DDTHH:mm:ss.sssZ`, with the expanded
±YYYYYY year form outside 0000-9999. -/
def toISOChars (ms : Int) : List Char :=
  let day := ms / 86400000
  let tod := (ms % 86400000).toNat
  let c := civilFromDay day
  yearChars c.1 ++ '-' :: pad2 c.2.1.toNat ++ '-' :: pad2 c.2.2.toNat ++
  'T' :: pad2 (tod / 3600000) ++ ':' :: pad2 (tod % 3600000 / 60000) ++
  ':' :: pad2 (tod % 60000 / 1000) ++ '.' :: pad3 (tod % 1000) ++ ['Z']

/-- `Date.prototype.toISOString` (valid time values only; the invalid-Date
RangeError is modelled at the call sites). -/
def toISOString (ms : Int) : String := String.mk (toISOChars ms)

/-- Read one decimal digit. -/
def rd1 (cs : List Char) : Option (Nat × List Char) :=
  match cs with
  | c :: r => if c.isDigit then some (digVal c, r) else none
  | [] => none

def rd2 (cs : List Char) : Option (Nat × List Char) :=
  match rd1 cs with
  | none => none
  | some (a, r) =>
    match rd1 r with
    | none => none
    | some (b, r2) => some (10 * a + b, r2)

def rd3 (cs : List Char) : Option (Nat × List Char) :=
  match rd1 cs with
  | none => none
  | some (a, r) =>
    match rd2 r with
    | none => none
    | some (b, r2) => some (100 * a + b, r2)

def rd4 (cs : List Char) : Option (Nat × List Char) :=
  match rd2 cs with
  | none => none
  | some (a, r) =>
    match rd2 r with
    | none => none
    | some (b, r2) => some (100 * a + b, r2)

def rd6 (cs : List Char) : Option (Nat × List Char) :=
  match rd3 cs with
  | none => none
  | some (a, r) =>
    match rd3 r with
    | none => none
    | some (b, r2) => some (1000 * a + b, r2)

/-- Fields of an ECMAScript date-time string. -/
structure DTFields where
  year : Int
  month : Int
  day : Int
  hh : Int
  mi : Int
  ss : Int
  msec : Int
  offMin : Int
deriving DecidableEq, Repr

/-- Trailing time-zone designator, in minutes. An absent designator is
modelled as UTC (ECMAScript interprets offset-less date-times in the host
time zone; this model fixes the host zone to UTC). -/
def parseOffMin (cs : List Char) : Option Int :=
  match cs with
  | [] => some 0
  | c :: r =>
    if c = 'Z' then (if r = [] then some 0 else none)
    else if c = '+' ∨ c = '-' then
      (match rd2 r with
      | none => none
      | some (h, r1) =>
        match r1 with
        | c2 :: r2 =>
          if c2 = ':' then
            (match rd2 r2 with
            | none => none
            | some (m, r3) =>
              if r3 = [] then some ((if c = '-' then -1 else 1) * ((h : Int) * 60 + m)) else none)
          else none
        | [] => none)
    else none

/-- Time part after the `T`: `HH:mm[:ss[.sss]]` plus designator. -/
def parseTimeTail (y mo d : Int) (cs : List Char) : Option DTFields :=
  match rd2 cs with
  | none => none
  | some (hh, r) =>
    match r with
    | [] => none
    | c :: r1 =>
      if c = ':' then
        (match rd2 r1 with
        | none => none
        | some (mi, r2) =>
          match r2 with
          | [] => some ⟨y, mo, d, hh, mi, 0, 0, 0⟩
          | c2 :: r3 =>
            if c2 = ':' then
              (match rd2 r3 with
              | none => none
              | some (ss, r4) =>
                match r4 with
                | [] => some ⟨y, mo, d, hh, mi, ss, 0, 0⟩
                | c3 :: r5 =>
                  if c3 = '.' then
                    (match rd3 r5 with
                    | none => none
                    | some (ms, r6) =>
                      match parseOffMin r6 with
                      | none => none
                      | some off => some ⟨y, mo, d, hh, mi, ss, ms, off⟩)
                  else
                    (match parseOffMin r4 with
                    | none => none
                    | some off => some ⟨y, mo, d, hh, mi, ss, 0, off⟩))
            else
              (match parseOffMin r2 with
              | none => none
              | some off => some ⟨y, mo, d, hh, mi, 0, 0, off⟩))
      else none

/-- Year: four digits, or a sign and six digits ("-000000" excluded). -/
def parseSignedYear (cs : List Char) : Option (Int × List Char) :=
  match cs with
  | [] => none
  | c :: r =>
    if c = '+' then
      (match rd6 r with
      | none => none
      | some (n, r2) => some ((n : Int), r2))
    else if c = '-' then
      (match rd6 r with
      | none => none
      | some (n, r2) => if n = 0 then none else some (-(n : Int), r2))
    else
      (match rd4 (c :: r) with
      | none => none
      | some (n, r2) => some ((n : Int), r2))

/-- Full ECMAScript Date Time String Format:
`Year[-MM[-DD]][THH:mm[:ss[.sss]]][Z|±HH:mm]`. -/
def parseFields (cs : List Char) : Option DTFields :=
  match parseSignedYear cs with
  | none => none
  | some (y, r) =>
    match r with
    | [] => some ⟨y, 1, 1, 0, 0, 0, 0, 0⟩
    | c :: r1 =>
      if c = 'T' then parseTimeTail y 1 1 r1
      else if c = '-' then
        (match rd2 r1 with
        | none => none
        | some (mo, r2) =>
          match r2 with
          | [] => some ⟨y, mo, 1, 0, 0, 0, 0, 0⟩
          | c2 :: r3 =>
            if c2 = 'T' then parseTimeTail y mo 1 r3
            else if c2 = '-' then
              (match rd2 r3 with
              | none => none
              | some (d, r4) =>
                match r4 with
                | [] => some ⟨y, mo, d, 0, 0, 0, 0, 0⟩
                | c3 :: r5 => if c3 = 'T' then parseTimeTail y mo d r5 else none)
            else none)
      else none

/-- Range/consistency validation the engine applies to parsed fields. -/
def validFields (f : DTFields) : Prop :=
  1 ≤ f.month ∧ f.month ≤ 12 ∧ 1 ≤ f.day ∧ f.day ≤ daysInMonth f.year f.month ∧
  f.mi ≤ 59 ∧ f.ss ≤ 59 ∧
  (f.hh ≤ 23 ∨ (f.hh = 24 ∧ f.mi = 0 ∧ f.ss = 0 ∧ f.msec = 0)) ∧
  f.offMin ≤ 1439 ∧ -1439 ≤ f.offMin

instance (f : DTFields) : Decidable (validFields f) := by unfold validFields; infer_instance

/-- Epoch milliseconds of validated fields (ECMAScript MakeDay/MakeTime). -/
def epochOfFields (f : DTFields) : Int :=
  makeDay f.year f.month f.day * 86400000 +
  f.hh * 3600000 + f.mi * 60000 + f.ss * 1000 + f.msec - f.offMin * 60000

/-- Model of `Date.parse` / `new Date(string)`: the ECMAScript Date Time
String Format, `none` for a non-conforming string (engine-specific legacy
fallback formats are outside the model) or an out-of-range time value. -/
def jsDateParse (s : String) : Option Int :=
  match parseFields s.toList with
  | none => none
  | some f =>
    if validFields f then
      if -8640000000000000 ≤ epochOfFields f ∧ epochOfFields f ≤ 8640000000000000 then
        some (epochOfFields f)
      else none
    else none

theorem digCh_isDigit {n : Nat} (h : n < 10) : (digCh n).isDigit = true := by
  interval_cases n <;> decide

theorem digVal_digCh {n : Nat} (h : n < 10) : digVal (digCh n) = n := by
  interval_cases n <;> decide

theorem digCh_ne_plus {n : Nat} (h : n < 10) : ¬ digCh n = '+' := by
  interval_cases n <;> decide

theorem digCh_ne_minus {n : Nat} (h : n < 10) : ¬ digCh n = '-' := by
  interval_cases n <;> decide

theorem rd1_digCh {n : Nat} (h : n < 10) (rest : List Char) :
    rd1 (digCh n :: rest) = some (n, rest) := by
  show (if (digCh n).isDigit = true then some (digVal (digCh n), rest) else none) = some (n, rest)
  rw [if_pos (digCh_isDigit h), digVal_digCh h]

theorem rd2_digits {a b : Nat} (ha : a < 10) (hb : b < 10) (rest : List Char) :
    rd2 (digCh a :: digCh b :: rest) = some (10 * a + b, rest) := by
  unfold rd2
  rw [rd1_digCh ha]
  dsimp only
  rw [rd1_digCh hb]

theorem rd3_digits {a b c : Nat} (ha : a < 10) (hb : b < 10) (hc : c < 10) (rest : List Char) :
    rd3 (digCh a :: digCh b :: digCh c :: rest) = some (100 * a + (10 * b + c), rest) := by
  unfold rd3
  rw [rd1_digCh ha]
  dsimp only
  rw [rd2_digits hb hc]

theorem rd4_digits {a b c d : Nat} (ha : a < 10) (hb : b < 10) (hc : c < 10) (hd : d < 10)
    (rest : List Char) :
    rd4 (digCh a :: digCh b :: digCh c :: digCh d :: rest) =
      some (100 * (10 * a + b) + (10 * c + d), rest) := by
  unfold rd4
  rw [rd2_digits ha hb]
  dsimp only
  rw [rd2_digits hc hd]

theorem rd6_digits {a b c d e f : Nat} (ha : a < 10) (hb : b < 10) (hc : c < 10) (hd : d < 10)
    (he : e < 10) (hf : f < 10) (rest : List Char) :
    rd6 (digCh a :: digCh b :: digCh c :: digCh d :: digCh e :: digCh f :: rest) =
      some (1000 * (100 * a + (10 * b + c)) + (100 * d + (10 * e + f)), rest) := by
  unfold rd6
  rw [rd3_digits ha hb hc]
  dsimp only
  rw [rd3_digits hd he hf]

theorem pad2_append (n : Nat) (rest : List Char) :
    pad2 n ++ rest = digCh (n / 10) :: digCh (n % 10) :: rest := rfl

theorem pad3_append (n : Nat) (rest : List Char) :
    pad3 n ++ rest = digCh (n / 100) :: digCh (n / 10 % 10) :: digCh (n % 10) :: rest := rfl

theorem pad4_append (n : Nat) (rest : List Char) :
    pad4 n ++ rest =
      digCh (n / 1000) :: digCh (n / 100 % 10) :: digCh (n / 10 % 10) :: digCh (n % 10) :: rest :=
  rfl

theorem pad6_append (n : Nat) (rest : List Char) :
    pad6 n ++ rest =
      digCh (n / 100000) :: digCh (n / 10000 % 10) :: digCh (n / 1000 % 10) ::
        digCh (n / 100 % 10) :: digCh (n / 10 % 10) :: digCh (n % 10) :: rest :=
  rfl

theorem rd2_pad2 {n : Nat} (h : n < 100) (rest : List Char) :
    rd2 (pad2 n ++ rest) = some (n, rest) := by
  rw [pad2_append, rd2_digits (by omega) (by omega)]
  have : 10 * (n / 10) + n % 10 = n := by omega
  rw [this]

theorem rd3_pad3 {n : Nat} (h : n < 1000) (rest : List Char) :
    rd3 (pad3 n ++ rest) = some (n, rest) := by
  rw [pad3_append, rd3_digits (by omega) (by omega) (by omega)]
  have : 100 * (n / 100) + (10 * (n / 10 % 10) + n % 10) = n := by omega
  rw [this]

theorem rd4_pad4 {n : Nat} (h : n < 10000) (rest : List Char) :
    rd4 (pad4 n ++ rest) = some (n, rest) := by
  rw [pad4_append, rd4_digits (by omega) (by omega) (by omega) (by omega)]
  have : 100 * (10 * (n / 1000) + n / 100 % 10) + (10 * (n / 10 % 10) + n % 10) = n := by omega
  rw [this]

theorem rd6_pad6 {n : Nat} (h : n < 1000000) (rest : List Char) :
    rd6 (pad6 n ++ rest) = some (n, rest) := by
  rw [pad6_append,
    rd6_digits (by omega) (by omega) (by omega) (by omega) (by omega) (by omega)]
  have : 1000 * (100 * (n / 100000) + (10 * (n / 10000 % 10) + n / 1000 % 10)) +
      (100 * (n / 100 % 10) + (10 * (n / 10 % 10) + n % 10)) = n := by omega
  rw [this]

theorem parseSignedYear_yearChars (y : Int) (rest : List Char)
    (h1 : -271821 ≤ y) (h2 : y ≤ 275760) :
    parseSignedYear (yearChars y ++ rest) = some (y, rest) := by
  unfold yearChars
  split_ifs with hA hB
  · rw [pad4_append]
    unfold parseSignedYear
    dsimp only
    rw [if_neg (digCh_ne_plus (by omega)), if_neg (digCh_ne_minus (by omega)),
      ← pad4_append, rd4_pad4 (by omega)]
    dsimp only
    congr 2
    omega
  · simp only [List.cons_append]
    unfold parseSignedYear
    dsimp only
    rw [if_neg (by decide), if_pos rfl, rd6_pad6 (by omega)]
    dsimp only
    rw [if_neg (by omega)]
    congr 2
    omega
  · simp only [List.cons_append]
    unfold parseSignedYear
    dsimp only
    rw [if_pos rfl, rd6_pad6 (by omega)]
    dsimp only
    congr 2
    omega

theorem parseOffMin_Z : parseOffMin ['Z'] = some 0 := rfl

theorem toList_mk (l : List Char) : (String.mk l).toList = l := rfl

theorem daysInMonth_le (y m : Int) : daysInMonth y m ≤ 31 := by
  have := leapBit_cases y
  unfold daysInMonth
  split_ifs <;> omega

theorem parseFields_iso (y mo d : Int) (hh mi ss ms : Nat)
    (hy1 : -271821 ≤ y) (hy2 : y ≤ 275760)
    (hmo0 : 0 ≤ mo) (hmo : mo ≤ 99) (hd0 : 0 ≤ d) (hd : d ≤ 99)
    (hhh : hh < 100) (hmi : mi < 100) (hss : ss < 100) (hms : ms < 1000) :
    parseFields (yearChars y ++ '-' :: pad2 mo.toNat ++ '-' :: pad2 d.toNat ++
      'T' :: pad2 hh ++ ':' :: pad2 mi ++ ':' :: pad2 ss ++ '.' :: pad3 ms ++ ['Z']) =
      some ⟨y, mo, d, (hh : Int), (mi : Int), (ss : Int), (ms : Int), 0⟩ := by
  have hmoT : mo.toNat < 100 := by omega
  have hdT : d.toNat < 100 := by omega
  simp only [List.cons_append, List.append_assoc]
  unfold parseFields
  rw [parseSignedYear_yearChars y _ hy1 hy2]
  dsimp only
  rw [if_neg (by decide), if_pos rfl, rd2_pad2 hmoT]
  dsimp only
  rw [if_neg (by decide), if_pos rfl, rd2_pad2 hdT]
  dsimp only
  rw [if_pos rfl]
  unfold parseTimeTail
  rw [rd2_pad2 hhh]
  dsimp only
  rw [if_pos rfl, rd2_pad2 hmi]
  dsimp only
  rw [if_pos rfl, rd2_pad2 hss]
  dsimp only
  rw [if_pos rfl, rd3_pad3 hms]
  dsimp only
  rw [parseOffMin_Z]
  dsimp only
  rw [Int.toNat_of_nonneg hmo0, Int.toNat_of_nonneg hd0]

/-- `new Date(s)` parses the output of `toISOString` back to the same
time value, for every valid time value. -/
theorem jsDateParse_toISOString (ms : Int)
    (h1 : -8640000000000000 ≤ ms) (h2 : ms ≤ 8640000000000000) :
    jsDateParse (toISOString ms) = some ms := by
  obtain ⟨y, mo, dd, hciv⟩ : ∃ y mo dd, civilFromDay (ms / 86400000) = (y, mo, dd) :=
    ⟨_, _, _, rfl⟩
  have hvalid := civilFromDay_valid (ms / 86400000)
  have hrt := makeDay_civilFromDay (ms / 86400000)
  rw [hciv] at hvalid hrt
  simp only at hvalid hrt
  have hy : y = yearFromDay (ms / 86400000) := by
    have h := congrArg Prod.fst hciv
    simp only [civilFromDay] at h
    exact h.symm
  have hyr := yearFromDay_range (ms / 86400000) (by omega) (by omega)
  rw [← hy] at hyr
  have hdim := daysInMonth_le y mo
  have htod : ((ms % 86400000).toNat : Int) = ms % 86400000 :=
    Int.toNat_of_nonneg (by omega)
  unfold toISOString jsDateParse
  rw [toList_mk]
  simp only [toISOChars]
  rw [hciv]
  dsimp only
  rw [parseFields_iso y mo dd _ _ _ _ (by omega) (by omega) (by omega) (by omega)
    (by omega) (by omega) (by omega) (by omega) (by omega) (by omega)]
  have hval : validFields ⟨y, mo, dd, (((ms % 86400000).toNat / 3600000 : Nat) : Int),
      (((ms % 86400000).toNat % 3600000 / 60000 : Nat) : Int),
      (((ms % 86400000).toNat % 60000 / 1000 : Nat) : Int),
      (((ms % 86400000).toNat % 1000 : Nat) : Int), 0⟩ := by
    unfold validFields
    dsimp only
    refine ⟨by omega, by omega, by omega, by omega, by omega, by omega, Or.inl (by omega),
      by omega, by omega⟩
  dsimp only
  rw [if_pos hval]
  have hep : epochOfFields ⟨y, mo, dd, (((ms % 86400000).toNat / 3600000 : Nat) : Int),
      (((ms % 86400000).toNat % 3600000 / 60000 : Nat) : Int),
      (((ms % 86400000).toNat % 60000 / 1000 : Nat) : Int),
      (((ms % 86400000).toNat % 1000 : Nat) : Int), 0⟩ = ms := by
    unfold epochOfFields
    dsimp only
    omega
  rw [hep, if_pos ⟨h1, h2⟩]

/- ## JavaScript runtime values -/

/-- JavaScript runtime values as the codec sees them: JSON-parse output
plus the two driver types it produces (`ObjectId`, `Date`). An `ObjectId`
is carried as its canonical lowercase-hex string; a valid `Date` as its
epoch-millisecond time value; `vdateInvalid` is the Invalid Date object. -/
inductive JSValue where
  | vnull
  | vbool (b : Bool)
  | vnum (n : Int)
  | vnan
  | vstr (s : String)
  | vid (hex : String)
  | vdate (ms : Int)
  | vdateInvalid
  | varr (elems : List JSValue)
  | vobj (fields : List (String × JSValue))

mutual

/-- Structural equality of runtime values (BSON value equality on the
`_id` index is modelled with it). -/
def jsBeq : JSValue → JSValue → Bool
  | .vnull, .vnull => true
  | .vbool a, .vbool b => a == b
  | .vnum a, .vnum b => a == b
  | .vnan, .vnan => true
  | .vstr a, .vstr b => a == b
  | .vid a, .vid b => a == b
  | .vdate a, .vdate b => a == b
  | .vdateInvalid, .vdateInvalid => true
  | .varr a, .varr b => jsBeqList a b
  | .vobj a, .vobj b => jsBeqFields a b
  | _, _ => false

def jsBeqList : List JSValue → List JSValue → Bool
  | [], [] => true
  | x :: xs, y :: ys => jsBeq x y && jsBeqList xs ys
  | _, _ => false

def jsBeqFields : List (String × JSValue) → List (String × JSValue) → Bool
  | [], [] => true
  | (k1, v1) :: xs, (k2, v2) :: ys => k1 == k2 && jsBeq v1 v2 && jsBeqFields xs ys
  | _, _ => false

end

/-- JavaScript truthiness. `null`, `false`, `0`, `NaN` and `""` are falsy;
every object (including arrays, Dates — even invalid ones — and
ObjectIds) is truthy. -/
def truthy : JSValue → Bool
  | .vnull => false
  | .vbool b => b
  | .vnum n => n != 0
  | .vnan => false
  | .vstr s => s != ""
  | _ => true

/-- Property read `obj[k]` on an object's field list; a missing property
is `undefined`, which behaves like `vnull` everywhere the codec looks. -/
def getField (fields : List (String × JSValue)) (k : String) : JSValue :=
  match fields.lookup k with
  | some v => v
  | none => .vnull

/-- Property read `x[k]` on an arbitrary value: only objects have the
codec-relevant properties; everything else yields `undefined`. -/
def getProp : JSValue → String → JSValue
  | .vobj fs, k => getField fs k
  | _, _ => .vnull

/-- `typeof x === 'string'`. -/
def isStr : JSValue → Bool
  | .vstr _ => true
  | _ => false

/-- `typeof x === 'object'` (arrays, plain objects, Dates and ObjectIds
are objects; `typeof null` is also `'object'` but every use site checks
truthiness first). -/
def isObjType : JSValue → Bool
  | .varr _ => true
  | .vobj _ => true
  | .vdate _ => true
  | .vdateInvalid => true
  | .vid _ => true
  | .vnull => true
  | _ => false

/-- The string payload, at use sites guarded by `isStr`. -/
def strOf : JSValue → String
  | .vstr s => s
  | _ => ""

/- ## Validators (`src/utils/validate.ts`) -/

def isHexChar (c : Char) : Bool :=
  c.isDigit || ('a' ≤ c && c ≤ 'f') || ('A' ≤ c && c ≤ 'F')

/-- `isValidObjectId`: `/^[0-9a-fA-F]{24}$/.test(str)`. -/
def isValidObjectId (s : String) : Bool :=
  s.length == 24 && s.toList.all isHexChar

/-- One position of the (unanchored) test of
`/\d{4}-\d{2}-\d{2}T\d{2}:\d{2}:\d{2}\.\d{3}Z/`. -/
def matchIsoAt : List Char → Bool
  | a :: b :: c :: d :: '-' :: e :: f :: '-' :: g :: h :: 'T' :: i :: j :: ':' :: k :: l ::
      ':' :: mm :: nn :: '.' :: o :: p :: q :: 'Z' :: _ =>
    a.isDigit && b.isDigit && c.isDigit && d.isDigit && e.isDigit && f.isDigit &&
    g.isDigit && h.isDigit && i.isDigit && j.isDigit && k.isDigit && l.isDigit &&
    mm.isDigit && nn.isDigit && o.isDigit && p.isDigit && q.isDigit
  | _ => false

/-- Unanchored regex containment: the pattern may start at any position. -/
def containsIso : List Char → Bool
  | [] => false
  | c :: rest => matchIsoAt (c :: rest) || containsIso rest

/-- `isValidDate` from `src/utils/validate.ts`:
`/\d{4}-\d{2}-\d{2}T\d{2}:\d{2}:\d{2}\.\d{3}Z/.test(str) && !isNaN(Date.parse(str))`.
Note the regex is not anchored. -/
def isValidDate (s : String) : Bool :=
  containsIso s.toList && (jsDateParse s).isSome

/-- Whole-string match of the `YYYY-MM-DDTHH:mm:ss.sssZ` pattern (what an
anchored version of the regex would test). -/
def matchIsoExact (s : String) : Bool :=
  matchIsoAt s.toList && s.length == 24

/- ## Driver primitives -/

def hexLowerChar (c : Char) : Char :=
  if 'A' ≤ c ∧ c ≤ 'F' then Char.ofNat (c.toNat + 32) else c

/-- Lowercase normalisation of a hex string, as `ObjectId.toHexString`
reports ids. -/
def hexLower (s : String) : String := String.mk (s.toList.map hexLowerChar)

/-- The bson `ObjectId` constructor: a 24-hex-character string is
accepted (the id is stored in canonical lowercase form); any other string
throws a `BSONError`; an `ObjectId` passes through; a numeric argument
makes the driver generate a fresh id (modelled as a fixed id, no claim
depends on the generated value); any other value throws. -/
def mkObjectId : JSValue → Except String JSValue
  | .vstr s =>
    if isValidObjectId s then .ok (.vid (hexLower s))
    else .error "input must be a 24 character hex string, 12 byte Uint8Array, or an integer"
  | .vid h => .ok (.vid h)
  | .vnum _ => .ok (.vid "000000000000000000000000")
  | _ => .error "input must be a 24 character hex string, 12 byte Uint8Array, or an integer"

/-- Digit-string value, `none` when not a nonempty all-digit string. -/
def digitsVal (cs : List Char) : Option Nat :=
  if cs ≠ [] ∧ cs.all Char.isDigit then
    some (cs.foldl (fun a c => 10 * a + digVal c) 0)
  else none

/-- ASCII whitespace, as far as the data of this pipeline meets it. -/
def isSpaceChar (c : Char) : Bool := c = ' ' ∨ c = '\t' ∨ c = '\n' ∨ c = '\r'

/-- JS `String.prototype.trim` (over ASCII whitespace). -/
def strTrim (s : String) : String :=
  String.mk ((s.toList.dropWhile isSpaceChar).reverse.dropWhile isSpaceChar).reverse

/-- JS `String.prototype.endsWith`. -/
def strEndsWith (s suffix : String) : Bool := List.isSuffixOf suffix.toList s.toList

/-- Drop the last `n` characters. -/
def strDropRight (s : String) (n : Nat) : String :=
  String.mk (s.toList.take (s.toList.length - n))

/-- Split on newline characters (JS `split('\n')`). -/
def strSplitLines (s : String) : List String := (s.toList.splitOn '\n').map String.mk

/-- JS `Number(string)` restricted to the integer literals the codec
meets: trimmed, empty string is 0, optional sign and decimal digits;
other shapes (decimals, exponents, hex) are modelled as NaN. -/
def jsStrToNumber (s : String) : Option Int :=
  match (strTrim s).toList with
  | [] => some 0
  | '+' :: r => (digitsVal r).map (fun n => (n : Int))
  | '-' :: r => (digitsVal r).map (fun n => -(n : Int))
  | cs => (digitsVal cs).map (fun n => (n : Int))

/-- JS `Number(x)` (ToNumber); `none` is NaN. Objects and arrays are
modelled as NaN. -/
def jsNumberOf : JSValue → Option Int
  | .vnum n => some n
  | .vnan => none
  | .vstr s => jsStrToNumber s
  | .vbool b => some (if b then 1 else 0)
  | .vnull => some 0
  | .vdate ms => some ms
  | _ => none

/-- `new Date(n)` for a numeric argument: invalid outside the
±8.64e15 ms range or for NaN. -/
def jsNewDateFromNum : Option Int → JSValue
  | none => .vdateInvalid
  | some n =>
    if -8640000000000000 ≤ n ∧ n ≤ 8640000000000000 then .vdate n else .vdateInvalid

/-- `new Date(s)` for a string argument. -/
def jsNewDateFromStr (s : String) : JSValue :=
  match jsDateParse s with
  | some ms => .vdate ms
  | none => .vdateInvalid

/-- `Number(x)` as a value: a number or NaN. -/
def numOrNan : Option Int → JSValue
  | some n => .vnum n
  | none => .vnan

/- ## The extended-JSON codec (`src/mongodb/convert.ts`) -/

mutual

/-- `convertExtendedJSON` from `src/mongodb/convert.ts`. Tagged forms are
handled first (`$oid`, `$date` with `$numberLong`, string `$date`,
`$numberInt`), then the per-entry loop applies key-restricted string
coercion and recurses. The result is in `Except` because the `ObjectId`
constructor throws on a malformed tagged id. `ObjectId` and `Date`
instances pass through untouched: they cannot occur in the function's
input, which is `JSON.parse` output. -/
def convertExtendedJSON (v : JSValue) : Except String JSValue :=
  match v with
  | .varr xs => (convertList xs).map .varr
  | .vobj fields =>
    if truthy (getField fields "$oid") then mkObjectId (getField fields "$oid")
    else if truthy (getField fields "$date") && isObjType (getField fields "$date") &&
        truthy (getProp (getField fields "$date") "$numberLong") then
      .ok (jsNewDateFromNum (jsNumberOf (getProp (getField fields "$date") "$numberLong")))
    else if truthy (getField fields "$date") && isStr (getField fields "$date") then
      .ok (jsNewDateFromStr (strOf (getField fields "$date")))
    else if truthy (getField fields "$numberInt") then
      .ok (numOrNan (jsNumberOf (getField fields "$numberInt")))
    else (convertEntries fields).map .vobj
  | other => .ok other
termination_by 2 * sizeOf v
decreasing_by all_goals (simp_wf <;> omega)

def convertList : List JSValue → Except String (List JSValue)
  | [] => .ok []
  | x :: rest => do
    let cx ← convertExtendedJSON x
    let crest ← convertList rest
    .ok (cx :: crest)
termination_by l => 2 * sizeOf l
decreasing_by all_goals (simp_wf <;> omega)

/-- One entry of the untagged-object loop of `convertExtendedJSON`:
string values of the keys `_id`/`theme_id` that look like object ids
become `ObjectId`s, string values of `createdAt`/`updatedAt`/
`last_modified_dt` that satisfy `isValidDate` become `Date`s, everything
else is recursed into. -/
def convertEntry (k : String) (v : JSValue) : Except String JSValue :=
  match v with
  | .vstr s =>
    if (k == "_id" || k == "theme_id") && isValidObjectId s then mkObjectId (.vstr s)
    else if (k == "createdAt" || k == "updatedAt" || k == "last_modified_dt") &&
        isValidDate s then
      .ok (jsNewDateFromStr s)
    else convertExtendedJSON (.vstr s)
  | other => convertExtendedJSON other
termination_by 2 * sizeOf v + 1
decreasing_by all_goals (simp_wf <;> omega)

def convertEntries : List (String × JSValue) → Except String (List (String × JSValue))
  | [] => .ok []
  | (k, v) :: rest => do
    let cv ← convertEntry k v
    let crest ← convertEntries rest
    .ok ((k, cv) :: crest)
termination_by l => 2 * sizeOf l
decreasing_by all_goals (simp_wf <;> omega)

end

mutual

/-- `prepareForJSONExport` from `convert.ts`: arrays map recursively,
`ObjectId` becomes `{"$oid": hex}`, `Date` becomes `{"$date": iso}`
(`toISOString` throws a RangeError on an Invalid Date), plain objects map
entrywise, primitives pass through. -/
def prepareForJSONExport (v : JSValue) : Except String JSValue :=
  match v with
  | .varr xs => (prepareList xs).map .varr
  | .vid h => .ok (.vobj [("$oid", .vstr h)])
  | .vdate ms => .ok (.vobj [("$date", .vstr (toISOString ms))])
  | .vdateInvalid => .error "Invalid time value"
  | .vobj fields => (prepareEntries fields).map .vobj
  | other => .ok other

def prepareList : List JSValue → Except String (List JSValue)
  | [] => .ok []
  | x :: rest => do
    let px ← prepareForJSONExport x
    let prest ← prepareList rest
    .ok (px :: prest)

def prepareEntries : List (String × JSValue) → Except String (List (String × JSValue))
  | [] => .ok []
  | (k, v) :: rest => do
    let pv ← prepareForJSONExport v
    let prest ← prepareEntries rest
    .ok ((k, pv) :: prest)

end

/- ## Round-trip property of the codec -/

mutual

/-- Documents in the grammar of the round-trip claim: Identifier,
DateTime, nested Array/Object and numeric fields (plus the inert
null/bool primitives). Identifiers are canonical driver ids (24 hex
characters, lowercase); DateTimes are valid instants; object keys avoid
the reserved extended-JSON markers. Strings are excluded: the codec's
opportunistic string coercion makes them a separate concern. -/
def wfDoc : JSValue → Bool
  | .vnull => true
  | .vbool _ => true
  | .vnum _ => true
  | .vid h => isValidObjectId h && (hexLower h == h)
  | .vdate ms => decide (-8640000000000000 ≤ ms) && decide (ms ≤ 8640000000000000)
  | .varr xs => wfList xs
  | .vobj fields => wfEntries fields
  | _ => false

def wfList : List JSValue → Bool
  | [] => true
  | x :: rest => wfDoc x && wfList rest

def wfEntries : List (String × JSValue) → Bool
  | [] => true
  | (k, v) :: rest =>
    !(k == "$oid" || k == "$date" || k == "$numberInt") && wfDoc v && wfEntries rest

end

theorem lookup_none_of_not_mem_keys {β : Type} (k : String) :
    ∀ l : List (String × β), ¬ k ∈ l.map Prod.fst → List.lookup k l = none := by
  intro l
  induction l with
  | nil => intro _; rfl
  | cons p rest ih =>
    intro h
    obtain ⟨k1, v1⟩ := p
    simp only [List.map_cons, List.mem_cons] at h
    push_neg at h
    have hbk : (k == k1) = false := beq_eq_false_iff_ne.mpr h.1
    simp only [List.lookup, hbk]
    exact ih h.2

theorem wfEntries_no_markers :
    ∀ fs : List (String × JSValue), wfEntries fs = true →
      ¬ "$oid" ∈ fs.map Prod.fst ∧ ¬ "$date" ∈ fs.map Prod.fst ∧
        ¬ "$numberInt" ∈ fs.map Prod.fst := by
  intro fs
  induction fs with
  | nil => intro _; simp
  | cons p rest ih =>
    intro h
    obtain ⟨k, v⟩ := p
    have h' := h
    simp only [wfEntries, Bool.and_eq_true] at h'
    obtain ⟨⟨hA, _⟩, hC⟩ := h'
    have hk : k ≠ "$oid" ∧ k ≠ "$date" ∧ k ≠ "$numberInt" := by
      simp only [Bool.not_eq_eq_eq_not, Bool.not_true, Bool.or_eq_false_iff,
        beq_eq_false_iff_ne, ne_eq] at hA
      exact ⟨hA.1.1, hA.1.2, hA.2⟩
    obtain ⟨h1, h2, h3⟩ := ih hC
    simp only [List.map_cons, List.mem_cons]
    push_neg
    exact ⟨⟨fun hh => hk.1 hh.symm, h1⟩, ⟨fun hh => hk.2.1 hh.symm, h2⟩,
      ⟨fun hh => hk.2.2 hh.symm, h3⟩⟩

theorem oid_ne_empty {h : String} (hv : isValidObjectId h = true) : (h != "") = true := by
  simp only [isValidObjectId, Bool.and_eq_true, beq_iff_eq] at hv
  simp only [bne_iff_ne, ne_eq]
  intro hh
  rw [hh] at hv
  simp at hv

theorem toISOChars_ne_nil (ms : Int) : toISOChars ms ≠ [] := by
  simp only [toISOChars]
  intro h
  have := List.append_eq_nil.mp h
  exact absurd this.2 (by simp)

theorem toISOString_ne_empty (ms : Int) : (toISOString ms != "") = true := by
  simp only [bne_iff_ne, ne_eq, toISOString]
  intro h
  exact toISOChars_ne_nil ms (congrArg String.data h)

theorem convertEntry_not_str (k : String) (v : JSValue) (h : isStr v = false) :
    convertEntry k v = convertExtendedJSON v := by
  cases v <;> simp_all [convertEntry, isStr]

theorem except_bind_ok {α β : Type} (a : α) (f : α → Except String β) :
    (Except.ok a >>= f) = f a := rfl

mutual

theorem rt_val : ∀ v : JSValue, wfDoc v = true →
    ∃ r, prepareForJSONExport v = .ok r ∧ convertExtendedJSON r = .ok v ∧ isStr r = false
  | .vnull, _ =>
    ⟨.vnull, by simp [prepareForJSONExport], by simp [convertExtendedJSON], rfl⟩
  | .vbool b, _ =>
    ⟨.vbool b, by simp [prepareForJSONExport], by simp [convertExtendedJSON], rfl⟩
  | .vnum n, _ =>
    ⟨.vnum n, by simp [prepareForJSONExport], by simp [convertExtendedJSON], rfl⟩
  | .vid h, hwf => by
    simp only [wfDoc, Bool.and_eq_true, beq_iff_eq] at hwf
    obtain ⟨hv, hcanon⟩ := hwf
    refine ⟨.vobj [("$oid", .vstr h)], by simp [prepareForJSONExport], ?_, rfl⟩
    have e1 : getField [("$oid", JSValue.vstr h)] "$oid" = JSValue.vstr h := rfl
    have e2 : truthy (JSValue.vstr h) = true := by
      simpa [truthy] using oid_ne_empty hv
    simp [convertExtendedJSON, e1, e2, mkObjectId, hv, hcanon]
  | .vdate ms, hwf => by
    simp only [wfDoc, Bool.and_eq_true, decide_eq_true_eq] at hwf
    obtain ⟨h1, h2⟩ := hwf
    refine ⟨.vobj [("$date", .vstr (toISOString ms))], by simp [prepareForJSONExport], ?_, rfl⟩
    have e0 : getField [("$date", JSValue.vstr (toISOString ms))] "$oid" = JSValue.vnull := rfl
    have e1 : getField [("$date", JSValue.vstr (toISOString ms))] "$date" =
        JSValue.vstr (toISOString ms) := rfl
    have e3 : getField [("$date", JSValue.vstr (toISOString ms))] "$numberInt" =
        JSValue.vnull := rfl
    have e2 : truthy (JSValue.vstr (toISOString ms)) = true := by
      simpa [truthy] using toISOString_ne_empty ms
    simp only [convertExtendedJSON, e0, e1, e2, e3, truthy, isStr, isObjType, strOf,
      Bool.false_and, Bool.and_false, Bool.true_and, Bool.and_true, if_false,
      Bool.false_eq_true, if_true, ite_false, ite_true]
    simp [jsNewDateFromStr, jsDateParse_toISOString ms h1 h2]
    intro hfalse
    exact absurd hfalse (by simpa [bne_iff_ne] using toISOString_ne_empty ms)
  | .varr xs, hwf => by
    obtain ⟨rs, hp, hc⟩ := rt_list xs (by simpa [wfDoc] using hwf)
    exact ⟨.varr rs, by simp [prepareForJSONExport, hp, Except.map],
      by simp [convertExtendedJSON, hc, Except.map], rfl⟩
  | .vobj fields, hwf => by
    have hwf' : wfEntries fields = true := by simpa [wfDoc] using hwf
    obtain ⟨rs, hp, hc, hkeys⟩ := rt_entries fields hwf'
    obtain ⟨hm1, hm2, hm3⟩ := wfEntries_no_markers fields hwf'
    refine ⟨.vobj rs, by simp [prepareForJSONExport, hp, Except.map], ?_, rfl⟩
    have hl1 : List.lookup "$oid" rs = none :=
      lookup_none_of_not_mem_keys _ rs (by rw [hkeys]; exact hm1)
    have hl2 : List.lookup "$date" rs = none :=
      lookup_none_of_not_mem_keys _ rs (by rw [hkeys]; exact hm2)
    have hl3 : List.lookup "$numberInt" rs = none :=
      lookup_none_of_not_mem_keys _ rs (by rw [hkeys]; exact hm3)
    simp [convertExtendedJSON, getField, hl1, hl2, hl3, truthy, hc, Except.map]
  | .vstr _, hwf => by simp [wfDoc] at hwf
  | .vnan, hwf => by simp [wfDoc] at hwf
  | .vdateInvalid, hwf => by simp [wfDoc] at hwf
termination_by v => 2 * sizeOf v
decreasing_by all_goals (simp_wf <;> omega)

theorem rt_list : ∀ xs : List JSValue, wfList xs = true →
    ∃ rs, prepareList xs = .ok rs ∧ convertList rs = .ok xs
  | [], _ => ⟨[], by simp [prepareList], by simp [convertList]⟩
  | x :: rest, hwf => by
    simp only [wfList, Bool.and_eq_true] at hwf
    obtain ⟨rv, hp, hc, _⟩ := rt_val x hwf.1
    obtain ⟨rs, hps, hcs⟩ := rt_list rest hwf.2
    exact ⟨rv :: rs, by simp [prepareList, hp, hps, except_bind_ok],
      by simp [convertList, hc, hcs, except_bind_ok]⟩
termination_by xs => 2 * sizeOf xs
decreasing_by all_goals (simp_wf <;> omega)

theorem rt_entries : ∀ fs : List (String × JSValue), wfEntries fs = true →
    ∃ rs, prepareEntries fs = .ok rs ∧ convertEntries rs = .ok fs ∧
      rs.map Prod.fst = fs.map Prod.fst
  | [], _ => ⟨[], by simp [prepareEntries], by simp [convertEntries], rfl⟩
  | (k, v) :: rest, hwf => by
    simp only [wfEntries, Bool.and_eq_true] at hwf
    obtain ⟨rv, hp, hc, hns⟩ := rt_val v hwf.1.2
    obtain ⟨rs, hps, hcs, hkeys⟩ := rt_entries rest hwf.2
    refine ⟨(k, rv) :: rs, by simp [prepareEntries, hp, hps, except_bind_ok], ?_,
      by simp [hkeys]⟩
    simp [convertEntries, convertEntry_not_str k rv hns, hc, hcs, except_bind_ok]
termination_by fs => 2 * sizeOf fs
decreasing_by all_goals (simp_wf <;> omega)

end

/- ## Database write model (`src/mongodb/import.ts`) -/

inductive ConflictStrategy where
  | upsert
  | skip
  | insert
deriving DecidableEq, Repr

inductive DataFormat where
  | json
  | csv
deriving DecidableEq, Repr

/-- `doc._id`, as the write paths read it (`none` is `undefined`). -/
def docId (doc : JSValue) : Option JSValue :=
  match doc with
  | .vobj fs => fs.lookup "_id"
  | _ => none

/-- Equality of `_id` filter values (two absent ids also match, as a
`{_id: undefined}` filter matches documents without the field). -/
def optIdBeq : Option JSValue → Option JSValue → Bool
  | none, none => true
  | some a, some b => jsBeq a b
  | _, _ => false

/-- `collection.insertMany(batch, {ordered: false})` against the unique
`_id` index: documents are attempted in order, every document whose id is
not already present is inserted, and the call rejects with a
duplicate-key error (code 11000) if any id collided. A document without
an `_id` receives a fresh generated id and always inserts. Returns the
new contents and whether a duplicate-key error was raised. -/
def insertManyUnordered (col : List JSValue) (batch : List JSValue) :
    List JSValue × Bool :=
  batch.foldl
    (fun acc doc =>
      match docId doc with
      | none => (acc.1 ++ [doc], acc.2)
      | some i =>
        if acc.1.any (fun d => optIdBeq (docId d) (some i)) then (acc.1, true)
        else (acc.1 ++ [doc], acc.2))
    (col, false)

/-- `replaceOne {filter: {_id: doc._id}, replacement: doc, upsert: true}`:
replace the first matching document in place, append when absent. -/
def replaceOneUpsert : List JSValue → JSValue → List JSValue
  | [], doc => [doc]
  | d :: rest, doc =>
    if optIdBeq (docId d) (docId doc) then doc :: rest
    else d :: replaceOneUpsert rest doc

/-- `updateOne {filter: {_id: doc._id}, update: {$setOnInsert: doc},
upsert: true}`: insert when no match exists, leave a match untouched. -/
def setOnInsertUpsert (col : List JSValue) (doc : JSValue) : List JSValue :=
  if col.any (fun d => optIdBeq (docId d) (docId doc)) then col
  else col ++ [doc]

/-- `executeDbBatch` from `src/mongodb/import.ts`: returns immediately on
an empty batch (before any clearing); otherwise clears the collection
when asked, then writes the batch — unordered `insertMany` under the
`insert` strategy or after clearing, with a duplicate-key error swallowed
(any other error classification cannot arise in this model), and an
unordered `bulkWrite` of per-document replace/`$setOnInsert` upserts under
the other strategies. Returns the collection's new contents. -/
def executeDbBatch (col : List JSValue) (batch : List JSValue)
    (clearCollections : Bool) (strategy : ConflictStrategy) : List JSValue :=
  if batch.isEmpty then col
  else
    let col' := if clearCollections then [] else col
    if strategy = .insert ∨ clearCollections = true then (insertManyUnordered col' batch).1
    else if strategy = .upsert then batch.foldl replaceOneUpsert col'
    else batch.foldl setOnInsertUpsert col'

/-- Split a list into consecutive chunks of `n` (at least 1) elements;
the fuel argument (instantiated with the list length, which bounds the
recursion depth) keeps the recursion structural. -/
def chunksOfGo (n : Nat) : Nat → List JSValue → List (List JSValue)
  | _, [] => []
  | 0, x :: rest => [x :: rest]
  | fuel + 1, x :: rest =>
    (x :: rest).take (max n 1) :: chunksOfGo n fuel ((x :: rest).drop (max n 1))

def chunksOf (n : Nat) (l : List JSValue) : List (List JSValue) :=
  chunksOfGo n l.length l

/-- The write phase of one imported file (JSON path of
`importCollections`): decoded documents are flushed through
`executeDbBatch` in batches of `batchSize`, and the clear flag is dropped
after the first executed batch. The time-based early flush of the stream
handler only subdivides batches further; the resulting collection state
is the same, so batches are modelled at the size boundary. -/
def runFileWrites (col : List JSValue) (docs : List JSValue) (clearCollections : Bool)
    (strategy : ConflictStrategy) (batchSize : Nat) : List JSValue :=
  ((chunksOf batchSize docs).foldl
    (fun acc chunk => (executeDbBatch acc.1 chunk acc.2 strategy, false))
    (col, clearCollections)).1

/- ## Import pipeline (`src/mongodb/import.ts`, JSON format) -/

/-- A file of the data directory: name and (textual) content. -/
structure ImpFile where
  name : String
  content : String

/-- The database: named collections and their documents. -/
def DbState := List (String × List JSValue)

def getCol (db : DbState) (name : String) : List JSValue :=
  match List.lookup name db with
  | some c => c
  | none => []

def setCol : DbState → String → List JSValue → DbState
  | [], name, c => [(name, c)]
  | (n, c0) :: rest, name, c =>
    if n = name then (n, c) :: rest else (n, c0) :: setCol rest name c

theorem length_dropWhile_le_self (p : Char → Bool) :
    ∀ l : List Char, (l.dropWhile p).length ≤ l.length := by
  intro l
  induction l with
  | nil => simp [List.dropWhile]
  | cons c rest ih =>
    simp only [List.dropWhile]
    split <;> simp <;> omega

/-- JS `line.split(/ +/)`: split on maximal runs of spaces, keeping an
empty leading/trailing piece when the line starts/ends with spaces. The
fuel argument (instantiated with the list length, which bounds the
recursion depth) keeps the recursion structural. -/
def splitSpacesGo : Nat → List Char → List Char → List String
  | _, cur, [] => [String.mk cur.reverse]
  | 0, cur, _ => [String.mk cur.reverse]
  | fuel + 1, cur, c :: rest =>
    if c = ' ' then
      String.mk cur.reverse :: splitSpacesGo fuel [] (rest.dropWhile (· = ' '))
    else splitSpacesGo fuel (c :: cur) rest

def jsSplitSpaces (s : String) : List String :=
  splitSpacesGo s.toList.length [] s.toList

/-- `Map.set`: later entries for the same key override earlier ones. -/
def setEntry (m : List (String × String)) (k v : String) : List (String × String) :=
  (k, v) :: m.filter (fun p => p.1 ≠ k)

/-- Manifest loading of `importCollections`: each line is split on runs
of spaces; the first two pieces are digest and file name, recorded
(trimmed) when both are nonempty. -/
def parseManifest (content : String) : List (String × String) :=
  (strSplitLines content).foldl
    (fun m line =>
      match jsSplitSpaces line with
      | hash :: file :: _ =>
        if hash ≠ "" ∧ file ≠ "" then setEntry m (strTrim file) (strTrim hash) else m
      | _ => m)
    []

/-- The collection name of a data file: `/^(.+)\.(json|csv)$/`. -/
def getCollectionName (fileName : String) : Option String :=
  if strEndsWith fileName ".json" then
    (if strDropRight fileName 5 = "" then none else some (strDropRight fileName 5))
  else if strEndsWith fileName ".csv" then
    (if strDropRight fileName 4 = "" then none else some (strDropRight fileName 4))
  else none

/-- The counting/verification pass of `importCollections` over one file
(source lines 90-143): an invalid name is recorded and the file dropped;
otherwise checksum verification (when enabled) and a document count are
attempted, any failure being recorded as a count error with the total
forced to 1; the file always reaches the processing list. Returns the
optional count error and the optional collection-info entry. -/
def phase1File (verificationEnabled : Bool) (checksumMap : List (String × String))
    (hash : String → String) (parseJson : String → Except String (List JSValue))
    (f : ImpFile) : Option (String × String) × Option (ImpFile × String × Nat) :=
  match getCollectionName f.name with
  | none => (some (f.name, "Invalid file name"), none)
  | some collectionName =>
    let res : Except String Nat := do
      if verificationEnabled then
        match List.lookup f.name checksumMap with
        | none => throw ("No checksum found for " ++ f.name ++ ".")
        | some expected =>
          if hash f.content ≠ expected then
            throw ("Checksum mismatch for " ++ f.name ++ "! File may be corrupt.")
          else pure ()
      else pure ()
      if f.content.utf8ByteSize > 2 then
        match parseJson f.content with
        | .error msg =>
          throw ("Checksum mismatch for " ++ f.name ++ "! File may be corrupt (parsing error: " ++
            msg ++ ").")
        | .ok docs => pure docs.length
      else pure 0
    match res with
    | .ok total => (none, some (f, collectionName, total))
    | .error msg => (some (f.name, msg), some (f, collectionName, 1))

/-- The processing pass of `importCollections` over one file (source
lines 180-295, JSON format): files that already failed the counting pass
are skipped; otherwise verification is repeated, the file is decoded and
written batchwise, and any failure is appended to the error list with the
database untouched by this file. -/
def phase2File (verificationEnabled : Bool) (checksumMap : List (String × String))
    (hash : String → String) (parseJson : String → Except String (List JSValue))
    (clearCollections : Bool) (strategy : ConflictStrategy) (batchSize : Nat)
    (countErrors : List (String × String))
    (st : DbState × List (String × String))
    (info : ImpFile × String × Nat) : DbState × List (String × String) :=
  if (countErrors.filter (fun e => e.1 = info.1.name)).isEmpty = false then st
  else
    let res : Except String DbState := do
      if verificationEnabled then
        match List.lookup info.1.name checksumMap with
        | none => throw ("No checksum found for " ++ info.1.name ++ ".")
        | some expected =>
          if hash info.1.content ≠ expected then
            throw ("Checksum mismatch for " ++ info.1.name ++ "! File may be corrupt.")
          else pure ()
      else pure ()
      match parseJson info.1.content with
      | .error msg =>
        throw ("Checksum mismatch for " ++ info.1.name ++
          "! File may be corrupt (parsing error: " ++ msg ++ ").")
      | .ok docs =>
        pure (setCol st.1 info.2.1
          (runFileWrites (getCol st.1 info.2.1) docs clearCollections strategy batchSize))
    match res with
    | .ok db' => (db', st.2)
    | .error msg => (st.1, st.2 ++ [(info.1.name, msg)])

/-- Outcome of an import run: final database, the per-file error list of
the summary, whether verification was enabled, and whether the run
reached the summary (`completed = false` models the early returns when no
data files or no processable files were found). -/
structure ImportResult where
  db : DbState
  errors : List (String × String)
  verificationEnabled : Bool
  completed : Bool

/-- `importCollections` from `src/mongodb/import.ts`, specialised to the
JSON format. External collaborators enter as parameters: `hash` is the
hex SHA-256 digest of a file's bytes, `parseJson` the incremental
stream-json array parser (`.error msg` when the content is not a
well-formed JSON array). The directory listing with file contents, the
optional manifest content, the clear flag, the conflict strategy and the
batch size are the remaining inputs. -/
def importCollections (hash : String → String)
    (parseJson : String → Except String (List JSValue)) (db : DbState)
    (files : List ImpFile) (manifest : Option String) (clearCollections : Bool)
    (strategy : ConflictStrategy) (batchSize : Nat) : ImportResult :=
  let dataFiles := files.filter (fun f => strEndsWith f.name ".json")
  if dataFiles.isEmpty then
    { db := db, errors := [], verificationEnabled := true, completed := false }
  else
    let checksumMap := match manifest with
      | none => []
      | some content => parseManifest content
    let verificationEnabled := match manifest with
      | none => false
      | some content => !(parseManifest content).isEmpty
    let phase1 := dataFiles.map (phase1File verificationEnabled checksumMap hash parseJson)
    let countErrors := phase1.filterMap Prod.fst
    let collectionInfo := phase1.filterMap Prod.snd
    if collectionInfo.isEmpty then
      { db := db, errors := [], verificationEnabled := verificationEnabled, completed := false }
    else
      let final := collectionInfo.foldl
        (phase2File verificationEnabled checksumMap hash parseJson clearCollections strategy
          batchSize countErrors)
        (db, countErrors)
      { db := final.1, errors := final.2, verificationEnabled := verificationEnabled,
        completed := true }

/- ## Export pipeline (`src/mongodb/export.ts`) -/

/-- A source collection as the export run sees it: its name, its
documents, and an optional injected failure standing for an I/O error
raised inside the per-collection `try` while streaming or writing. -/
structure ExpCollection where
  name : String
  docs : List JSValue
  streamFail : Option String

/-- Outcome of an export run: written files (name, content), accumulated
checksums, per-collection errors, the manifest file content (written only
when at least one checksum accumulated) and the completed count. -/
structure ExportResult where
  files : List (String × String)
  checksums : List (String × String)
  errors : List (String × String)
  manifest : Option String
  completed : Nat

def extOf : DataFormat → String
  | .json => "json"
  | .csv => "csv"

/-- One iteration of the export loop (source lines 52-144): an empty
collection takes the dedicated branch that writes `[]` (JSON) or an empty
file (CSV) and records its checksum; otherwise the try block streams and
writes the collection (modelled by `render`, with `streamFail` opening
the failure path), records the file's checksum on success, and on failure
records `{collection, reason}` and moves on. Partially written files of
failed collections are not modelled. -/
def exportStep (hash : String → String) (render : List JSValue → Except String String)
    (format : DataFormat)
    (st : List (String × String) × List (String × String) × List (String × String) × Nat)
    (c : ExpCollection) :
    List (String × String) × List (String × String) × List (String × String) × Nat :=
  let fileName := c.name ++ "." ++ extOf format
  if c.docs.length = 0 then
    let emptyContent := if format = .json then "[]" else ""
    (st.1 ++ [(fileName, emptyContent)], st.2.1 ++ [(fileName, hash emptyContent)],
      st.2.2.1, st.2.2.2 + 1)
  else
    match (match c.streamFail with
           | some r => Except.error r
           | none => render c.docs) with
    | .error msg => (st.1, st.2.1, st.2.2.1 ++ [(c.name, msg)], st.2.2.2 + 1)
    | .ok content =>
      (st.1 ++ [(fileName, content)], st.2.1 ++ [(fileName, hash content)],
        st.2.2.1, st.2.2.2 + 1)

/-- `exportCollections` from `src/mongodb/export.ts`. `hash` is the hex
SHA-256 digest; `render` is the per-collection serialisation (JSON
streaming of `prepareForJSONExport`ed documents, or CSV unparse), whose
failure — like a stream failure — is caught by the per-collection try.
After all collections, `manifest.sha256` is written when at least one
checksum accumulated. -/
def exportCollections (hash : String → String)
    (render : List JSValue → Except String String) (format : DataFormat)
    (cols : List ExpCollection) : ExportResult :=
  if cols.isEmpty then
    { files := [], checksums := [], errors := [], manifest := none, completed := 0 }
  else
    let final := cols.foldl (exportStep hash render format) ([], [], [], 0)
    { files := final.1, checksums := final.2.1, errors := final.2.2.1,
      manifest :=
        if final.2.1.isEmpty then none
        else some (String.intercalate "\n"
          (final.2.1.map (fun p => p.2 ++ "  " ++ p.1))),
      completed := final.2.2.2 }

/- ## Helper lemmas for the claim theorems -/

theorem matchIsoAt_containsIso (cs : List Char) (h : matchIsoAt cs = true) :
    containsIso cs = true := by
  cases cs with
  | nil => simp [matchIsoAt] at h
  | cons c rest => simp [containsIso, h]

/-- A one-entry object has no field under any other key. -/
theorem getField_single_other (k key : String) (v : JSValue) (h : (key == k) = false) :
    getField [(k, v)] key = JSValue.vnull := by
  simp [getField, List.lookup, h]

theorem executeDbBatch_clear_indep (col col' batch : List JSValue)
    (strategy : ConflictStrategy) (hb : batch ≠ []) :
    executeDbBatch col batch true strategy = executeDbBatch col' batch true strategy := by
  have hbe : batch.isEmpty = false := by
    cases batch with
    | nil => exact absurd rfl hb
    | cons x rest => rfl
  simp [executeDbBatch, hbe]

theorem take_max_ne_nil (n : Nat) (x : JSValue) (rest : List JSValue) :
    (x :: rest).take (max n 1) ≠ [] := by
  have h1 : max n 1 = (max n 1 - 1) + 1 := by omega
  rw [h1, List.take_succ_cons]
  simp

/- ## C2: conflict strategies on the reference scenario -/

/-- C2: with the target collection pre-populated with `{_id: 1, v: "old"}`
and the batch `[{_id: 1, v: "new"}, {_id: 2, v: "new"}]` (clear flag
unset), the `insert` strategy tolerates the duplicate on id 1 (the
duplicate-key error is raised by the unordered insert and swallowed) and
inserts id 2, ending in `{1: "old"}, {2: "new"}`; `upsert` ends in
`{1: "new"}, {2: "new"}`; `skip` ends in `{1: "old"}, {2: "new"}`. -/
theorem conflict_strategies_scenario :
    executeDbBatch [.vobj [("_id", .vnum 1), ("v", .vstr "old")]]
        [.vobj [("_id", .vnum 1), ("v", .vstr "new")],
         .vobj [("_id", .vnum 2), ("v", .vstr "new")]] false .insert =
      [.vobj [("_id", .vnum 1), ("v", .vstr "old")],
       .vobj [("_id", .vnum 2), ("v", .vstr "new")]] ∧
    (insertManyUnordered [.vobj [("_id", .vnum 1), ("v", .vstr "old")]]
        [.vobj [("_id", .vnum 1), ("v", .vstr "new")],
         .vobj [("_id", .vnum 2), ("v", .vstr "new")]]).2 = true ∧
    executeDbBatch [.vobj [("_id", .vnum 1), ("v", .vstr "old")]]
        [.vobj [("_id", .vnum 1), ("v", .vstr "new")],
         .vobj [("_id", .vnum 2), ("v", .vstr "new")]] false .upsert =
      [.vobj [("_id", .vnum 1), ("v", .vstr "new")],
       .vobj [("_id", .vnum 2), ("v", .vstr "new")]] ∧
    executeDbBatch [.vobj [("_id", .vnum 1), ("v", .vstr "old")]]
        [.vobj [("_id", .vnum 1), ("v", .vstr "new")],
         .vobj [("_id", .vnum 2), ("v", .vstr "new")]] false .skip =
      [.vobj [("_id", .vnum 1), ("v", .vstr "old")],
       .vobj [("_id", .vnum 2), ("v", .vstr "new")]] :=
  ⟨rfl, rfl, rfl, rfl⟩

/- ## C7: the clear flag -/

/-- Counterexample to C7 as stated: with the clear flag set and a file
decoding to zero documents, the pre-existing document is NOT deleted —
`executeDbBatch` returns before clearing on an empty batch, and the
whole pipeline never calls it for an empty file, as the full run over a
`[]`-bodied file shows. -/
theorem clear_empty_no_delete_cex :
    executeDbBatch [.vobj [("_id", .vnum 1)]] [] true .insert = [.vobj [("_id", .vnum 1)]] ∧
    (importCollections (fun _ => "h")
        (fun s => if s = "[]" then .ok [] else .error "parse")
        [("c", [.vobj [("_id", .vnum 1)]])] [⟨"c.json", "[]"⟩] none true .insert 1000).db =
      [("c", [.vobj [("_id", .vnum 1)]])] ∧
    [JSValue.vobj [("_id", .vnum 1)]] ≠ ([] : List JSValue) := by
  refine ⟨rfl, rfl, by simp⟩

/-- C7 (amended): with the clear flag set, the result is independent of
the prior collection contents provided the file decodes to at least one
document — everything is deleted before the first write; a file decoding
to zero documents performs no deletion at all (the batch executor returns
early on an empty batch), leaving the collection untouched. -/
theorem clear_before_write (col col' docs : List JSValue)
    (strategy : ConflictStrategy) (batchSize : Nat) (hd : docs ≠ []) :
    runFileWrites col docs true strategy batchSize =
      runFileWrites col' docs true strategy batchSize ∧
    runFileWrites col [] true strategy batchSize = col := by
  constructor
  · obtain ⟨x, rest, rfl⟩ : ∃ x rest, docs = x :: rest := by
      cases docs with
      | nil => exact absurd rfl hd
      | cons x rest => exact ⟨x, rest, rfl⟩
    simp only [runFileWrites, chunksOf, List.length_cons, chunksOfGo, List.foldl_cons]
    rw [executeDbBatch_clear_indep col col' _ strategy (take_max_ne_nil batchSize x rest)]
  · simp [runFileWrites, chunksOf, chunksOfGo]

/- ## C5: totality of the decoder on malformed leaves -/

/-- Counterexample to C5 as stated: decoding is not total — a tagged
`{"$oid": s}` whose `s` is a truthy string but not a valid id makes the
`ObjectId` constructor throw. -/
theorem decode_bad_oid_raises_cex :
    convertExtendedJSON (.vobj [("$oid", .vstr "xyz")]) =
      .error "input must be a 24 character hex string, 12 byte Uint8Array, or an integer" := by
  have hv : isValidObjectId "xyz" = false := by decide
  simp [convertExtendedJSON, getField, truthy, mkObjectId, hv]

/-- C5 (amended): the decoder never raises on untagged malformed string
leaves, which fall through unchanged; but a tagged `{"$oid": s}` with a
nonempty invalid `s` raises (the ObjectId constructor throws), and an
unparseable `{"$date": s}` becomes an Invalid Date, not the raw string. -/
theorem decode_malformed_leaves :
    (∀ s : String, s ≠ "" → isValidObjectId s = false →
      convertExtendedJSON (.vobj [("$oid", .vstr s)]) =
        .error "input must be a 24 character hex string, 12 byte Uint8Array, or an integer") ∧
    (∀ s : String, s ≠ "" → jsDateParse s = none →
      convertExtendedJSON (.vobj [("$date", .vstr s)]) = .ok .vdateInvalid) ∧
    (∀ k s : String,
      k ∉ (["$oid", "$date", "$numberInt", "_id", "theme_id",
            "createdAt", "updatedAt", "last_modified_dt"] : List String) →
      convertExtendedJSON (.vobj [(k, .vstr s)]) = .ok (.vobj [(k, .vstr s)])) := by
  refine ⟨?_, ?_, ?_⟩
  · intro s hs hv
    have e1 : getField [("$oid", JSValue.vstr s)] "$oid" = JSValue.vstr s := rfl
    have e2 : truthy (JSValue.vstr s) = true := by simpa [truthy, bne_iff_ne] using hs
    simp [convertExtendedJSON, e1, e2, mkObjectId, hv]
  · intro s hs hp
    have e0 : getField [("$date", JSValue.vstr s)] "$oid" = JSValue.vnull := rfl
    have e1 : getField [("$date", JSValue.vstr s)] "$date" = JSValue.vstr s := rfl
    have e3 : getField [("$date", JSValue.vstr s)] "$numberInt" = JSValue.vnull := rfl
    have e2 : truthy (JSValue.vstr s) = true := by simpa [truthy, bne_iff_ne] using hs
    simp [convertExtendedJSON, e0, e1, e2, e3, truthy, isStr, isObjType, strOf,
      jsNewDateFromStr, hp]
    intro hfalse
    exact absurd hfalse hs
  · intro k s hk
    simp only [List.mem_cons, List.not_mem_nil, or_false, not_or] at hk
    obtain ⟨hk1, hk2, hk3, hk4, hk5, hk6, hk7, hk8⟩ := hk
    have e0 : getField [(k, JSValue.vstr s)] "$oid" = JSValue.vnull := by
      simp [getField, List.lookup, beq_eq_false_iff_ne.mpr (Ne.symm hk1)]
    have e1 : getField [(k, JSValue.vstr s)] "$date" = JSValue.vnull := by
      simp [getField, List.lookup, beq_eq_false_iff_ne.mpr (Ne.symm hk2)]
    have e3 : getField [(k, JSValue.vstr s)] "$numberInt" = JSValue.vnull := by
      simp [getField, List.lookup, beq_eq_false_iff_ne.mpr (Ne.symm hk3)]
    have ek : convertEntry k (.vstr s) = .ok (.vstr s) := by
      simp [convertEntry, beq_eq_false_iff_ne.mpr hk4, beq_eq_false_iff_ne.mpr hk5,
        beq_eq_false_iff_ne.mpr hk6, beq_eq_false_iff_ne.mpr hk7,
        beq_eq_false_iff_ne.mpr hk8, convertExtendedJSON]
    simp [convertExtendedJSON, e0, e1, e3, truthy, convertEntries, ek, except_bind_ok,
      Except.map]

/-- Closed witness for the amended C5, at `s = "xyz"`, `s = "zzz"` and
`(k, s) = ("foo", "bar")`. -/
theorem decode_malformed_leaves_witness :
    convertExtendedJSON (.vobj [("$oid", .vstr "zy")]) =
      .error "input must be a 24 character hex string, 12 byte Uint8Array, or an integer" ∧
    convertExtendedJSON (.vobj [("$date", .vstr "zzz")]) = .ok .vdateInvalid ∧
    convertExtendedJSON (.vobj [("foo", .vstr "bar")]) = .ok (.vobj [("foo", .vstr "bar")]) :=
  ⟨decode_malformed_leaves.1 "zy" (by decide) (by decide),
   decode_malformed_leaves.2.1 "zzz" (by decide) (by decide),
   decode_malformed_leaves.2.2 "foo" "bar" (by decide)⟩

/-- Closed witness for the amended C7, with one prior document and a
one-document batch. -/
theorem clear_before_write_witness :
    runFileWrites [JSValue.vobj [("a", JSValue.vnum 1)]] [JSValue.vobj [("b", JSValue.vnum 2)]]
        true .insert 1000 =
      runFileWrites [] [JSValue.vobj [("b", JSValue.vnum 2)]] true .insert 1000 ∧
    runFileWrites [JSValue.vobj [("a", JSValue.vnum 1)]] [] true .insert 1000 =
      [JSValue.vobj [("a", JSValue.vnum 1)]] :=
  clear_before_write [JSValue.vobj [("a", JSValue.vnum 1)]] []
    [JSValue.vobj [("b", JSValue.vnum 2)]] .insert 1000 (by simp)

/- ## C6: promotion of untagged strings is key-restricted -/

/-- A one-entry object under a non-marker, non-promoted key decodes to
itself. -/
theorem convert_single_passthrough (k s : String)
    (hk : k ∉ (["$oid", "$date", "$numberInt", "_id", "theme_id",
          "createdAt", "updatedAt", "last_modified_dt"] : List String)) :
    convertExtendedJSON (.vobj [(k, .vstr s)]) = .ok (.vobj [(k, .vstr s)]) := by
  simp only [List.mem_cons, List.not_mem_nil, or_false, not_or] at hk
  obtain ⟨hk1, hk2, hk3, hk4, hk5, hk6, hk7, hk8⟩ := hk
  have e0 : getField [(k, JSValue.vstr s)] "$oid" = JSValue.vnull := by
    simp [getField, List.lookup, beq_eq_false_iff_ne.mpr (Ne.symm hk1)]
  have e1 : getField [(k, JSValue.vstr s)] "$date" = JSValue.vnull := by
    simp [getField, List.lookup, beq_eq_false_iff_ne.mpr (Ne.symm hk2)]
  have e3 : getField [(k, JSValue.vstr s)] "$numberInt" = JSValue.vnull := by
    simp [getField, List.lookup, beq_eq_false_iff_ne.mpr (Ne.symm hk3)]
  have ek : convertEntry k (.vstr s) = .ok (.vstr s) := by
    simp [convertEntry, beq_eq_false_iff_ne.mpr hk4, beq_eq_false_iff_ne.mpr hk5,
      beq_eq_false_iff_ne.mpr hk6, beq_eq_false_iff_ne.mpr hk7,
      beq_eq_false_iff_ne.mpr hk8, convertExtendedJSON]
  simp [convertExtendedJSON, e0, e1, e3, truthy, convertEntries, ek, except_bind_ok,
    Except.map]

/-- A valid-id string under `_id` decodes to an ObjectId. -/
theorem convert_single_id_key (s : String) (hv : isValidObjectId s = true) :
    convertExtendedJSON (.vobj [("_id", .vstr s)]) =
      .ok (.vobj [("_id", .vid (hexLower s))]) := by
  have ek : convertEntry "_id" (.vstr s) = .ok (.vid (hexLower s)) := by
    simp [convertEntry, mkObjectId, hv]
  have e0 := getField_single_other "_id" "$oid" (.vstr s) (by decide)
  have e1 := getField_single_other "_id" "$date" (.vstr s) (by decide)
  have e3 := getField_single_other "_id" "$numberInt" (.vstr s) (by decide)
  simp [convertExtendedJSON, e0, e1, e3, truthy, convertEntries, ek, except_bind_ok,
    Except.map]

/-- A valid-id string under `theme_id` decodes to an ObjectId. -/
theorem convert_single_theme_key (s : String) (hv : isValidObjectId s = true) :
    convertExtendedJSON (.vobj [("theme_id", .vstr s)]) =
      .ok (.vobj [("theme_id", .vid (hexLower s))]) := by
  have ek : convertEntry "theme_id" (.vstr s) = .ok (.vid (hexLower s)) := by
    simp [convertEntry, mkObjectId, hv]
  have e0 := getField_single_other "theme_id" "$oid" (.vstr s) (by decide)
  have e1 := getField_single_other "theme_id" "$date" (.vstr s) (by decide)
  have e3 := getField_single_other "theme_id" "$numberInt" (.vstr s) (by decide)
  simp [convertExtendedJSON, e0, e1, e3, truthy, convertEntries, ek, except_bind_ok,
    Except.map]

/-- A date-shaped string under `createdAt` decodes to a Date. -/
theorem convert_single_created_key (s : String) (hv : isValidDate s = true) :
    convertExtendedJSON (.vobj [("createdAt", .vstr s)]) =
      .ok (.vobj [("createdAt", jsNewDateFromStr s)]) := by
  have ek : convertEntry "createdAt" (.vstr s) = .ok (jsNewDateFromStr s) := by
    simp [convertEntry, hv]
  have e0 := getField_single_other "createdAt" "$oid" (.vstr s) (by decide)
  have e1 := getField_single_other "createdAt" "$date" (.vstr s) (by decide)
  have e3 := getField_single_other "createdAt" "$numberInt" (.vstr s) (by decide)
  simp [convertExtendedJSON, e0, e1, e3, truthy, convertEntries, ek, except_bind_ok,
    Except.map]

/-- A date-shaped string under `updatedAt` decodes to a Date. -/
theorem convert_single_updated_key (s : String) (hv : isValidDate s = true) :
    convertExtendedJSON (.vobj [("updatedAt", .vstr s)]) =
      .ok (.vobj [("updatedAt", jsNewDateFromStr s)]) := by
  have ek : convertEntry "updatedAt" (.vstr s) = .ok (jsNewDateFromStr s) := by
    simp [convertEntry, hv]
  have e0 := getField_single_other "updatedAt" "$oid" (.vstr s) (by decide)
  have e1 := getField_single_other "updatedAt" "$date" (.vstr s) (by decide)
  have e3 := getField_single_other "updatedAt" "$numberInt" (.vstr s) (by decide)
  simp [convertExtendedJSON, e0, e1, e3, truthy, convertEntries, ek, except_bind_ok,
    Except.map]

/-- A date-shaped string under `last_modified_dt` decodes to a Date. -/
theorem convert_single_lastmod_key (s : String) (hv : isValidDate s = true) :
    convertExtendedJSON (.vobj [("last_modified_dt", .vstr s)]) =
      .ok (.vobj [("last_modified_dt", jsNewDateFromStr s)]) := by
  have ek : convertEntry "last_modified_dt" (.vstr s) = .ok (jsNewDateFromStr s) := by
    simp [convertEntry, hv]
  have e0 := getField_single_other "last_modified_dt" "$oid" (.vstr s) (by decide)
  have e1 := getField_single_other "last_modified_dt" "$date" (.vstr s) (by decide)
  have e3 := getField_single_other "last_modified_dt" "$numberInt" (.vstr s) (by decide)
  simp [convertExtendedJSON, e0, e1, e3, truthy, convertEntries, ek, except_bind_ok,
    Except.map]

/-- Counterexample to C6 as stated: a 24-hex-character string value under
a key other than `_id`/`theme_id` (here `foo`) passes through unchanged;
it is NOT promoted to an ObjectId, so the promotion is not
key-independent. -/
theorem hex_string_not_promoted_cex :
    convertExtendedJSON (.vobj [("foo", .vstr "507f1f77bcf86cd799439011")]) =
      .ok (.vobj [("foo", .vstr "507f1f77bcf86cd799439011")]) ∧
    (Except.ok (JSValue.vobj [("foo", JSValue.vstr "507f1f77bcf86cd799439011")]) :
        Except String JSValue) ≠
      .ok (.vobj [("foo", .vid "507f1f77bcf86cd799439011")]) := by
  constructor
  · exact convert_single_passthrough "foo" "507f1f77bcf86cd799439011" (by decide)
  · simp

/-- C6 (amended): the characteristic promotion of untagged strings during
decode is key-restricted — a valid-id string becomes an ObjectId exactly
under the keys `_id` and `theme_id` (lowercased hex), a string passing
`isValidDate` becomes a Date exactly under `createdAt`, `updatedAt` and
`last_modified_dt`, and under every other (non-marker) key the string
passes through unchanged. -/
theorem untagged_promotion_key_restricted :
    (∀ s, isValidObjectId s = true →
      convertExtendedJSON (.vobj [("_id", .vstr s)]) =
        .ok (.vobj [("_id", .vid (hexLower s))])) ∧
    (∀ s, isValidObjectId s = true →
      convertExtendedJSON (.vobj [("theme_id", .vstr s)]) =
        .ok (.vobj [("theme_id", .vid (hexLower s))])) ∧
    (∀ s, isValidDate s = true →
      convertExtendedJSON (.vobj [("createdAt", .vstr s)]) =
        .ok (.vobj [("createdAt", jsNewDateFromStr s)])) ∧
    (∀ s, isValidDate s = true →
      convertExtendedJSON (.vobj [("updatedAt", .vstr s)]) =
        .ok (.vobj [("updatedAt", jsNewDateFromStr s)])) ∧
    (∀ s, isValidDate s = true →
      convertExtendedJSON (.vobj [("last_modified_dt", .vstr s)]) =
        .ok (.vobj [("last_modified_dt", jsNewDateFromStr s)])) ∧
    (∀ k s : String,
      k ∉ (["$oid", "$date", "$numberInt", "_id", "theme_id",
            "createdAt", "updatedAt", "last_modified_dt"] : List String) →
      convertExtendedJSON (.vobj [(k, .vstr s)]) = .ok (.vobj [(k, .vstr s)])) :=
  ⟨convert_single_id_key, convert_single_theme_key, convert_single_created_key,
   convert_single_updated_key, convert_single_lastmod_key, convert_single_passthrough⟩

/-- Closed witness for the amended C6, exercising all six conjuncts. -/
theorem untagged_promotion_witness :
    convertExtendedJSON (.vobj [("_id", .vstr "507F1f77bcf86cd799439011")]) =
      .ok (.vobj [("_id", .vid (hexLower "507F1f77bcf86cd799439011"))]) ∧
    convertExtendedJSON (.vobj [("theme_id", .vstr "507f1f77bcf86cd799439011")]) =
      .ok (.vobj [("theme_id", .vid (hexLower "507f1f77bcf86cd799439011"))]) ∧
    convertExtendedJSON (.vobj [("createdAt", .vstr "2024-01-02T03:04:05.678Z")]) =
      .ok (.vobj [("createdAt", jsNewDateFromStr "2024-01-02T03:04:05.678Z")]) ∧
    convertExtendedJSON (.vobj [("updatedAt", .vstr "2024-01-02T03:04:05.678Z")]) =
      .ok (.vobj [("updatedAt", jsNewDateFromStr "2024-01-02T03:04:05.678Z")]) ∧
    convertExtendedJSON (.vobj [("last_modified_dt", .vstr "2024-01-02T03:04:05.678Z")]) =
      .ok (.vobj [("last_modified_dt", jsNewDateFromStr "2024-01-02T03:04:05.678Z")]) ∧
    convertExtendedJSON (.vobj [("foo", .vstr "bar")]) = .ok (.vobj [("foo", .vstr "bar")]) :=
  ⟨untagged_promotion_key_restricted.1 "507F1f77bcf86cd799439011" (by decide),
   untagged_promotion_key_restricted.2.1 "507f1f77bcf86cd799439011" (by decide),
   untagged_promotion_key_restricted.2.2.1 "2024-01-02T03:04:05.678Z" (by decide),
   untagged_promotion_key_restricted.2.2.2.1 "2024-01-02T03:04:05.678Z" (by decide),
   untagged_promotion_key_restricted.2.2.2.2.1 "2024-01-02T03:04:05.678Z" (by decide),
   untagged_promotion_key_restricted.2.2.2.2.2 "foo" "bar" (by decide)⟩

/- ## C9: the date-shape test is an unanchored regex -/

/-- Counterexample to C9 as stated: the validator's regex is unanchored,
so the 28-character expanded-year string `+002024-01-01T00:00:00.000Z`,
which merely CONTAINS the `YYYY-MM-DDTHH:mm:ss.SSSZ` pattern (from
position 3) and parses as a date, passes `isValidDate` even though it is
not itself of that exact 24-character shape. -/
theorem date_pattern_substring_cex :
    isValidDate "+002024-01-01T00:00:00.000Z" = true ∧
    matchIsoExact "+002024-01-01T00:00:00.000Z" = false := by
  exact ⟨by decide, by decide⟩

/-- C9 (amended): `isValidDate` accepts every parseable string that
CONTAINS the ISO pattern: every exact match is accepted, but so are
proper superstrings such as `+002024-01-01T00:00:00.000Z`, because the
test regex is unanchored. -/
theorem date_validation_unanchored :
    (∀ s, matchIsoExact s = true → (jsDateParse s).isSome = true → isValidDate s = true) ∧
    isValidDate "+002024-01-01T00:00:00.000Z" = true ∧
    matchIsoExact "+002024-01-01T00:00:00.000Z" = false := by
  refine ⟨?_, by decide, by decide⟩
  intro s hm hp
  have hm' := hm
  simp only [matchIsoExact, Bool.and_eq_true] at hm'
  unfold isValidDate
  rw [matchIsoAt_containsIso s.toList hm'.1, hp]
  rfl

/-- Closed witness for the amended C9, at an exact-shape string. -/
theorem date_validation_unanchored_witness :
    matchIsoExact "2024-01-02T03:04:05.678Z" = true ∧
    (jsDateParse "2024-01-02T03:04:05.678Z").isSome = true ∧
    isValidDate "2024-01-02T03:04:05.678Z" = true :=
  ⟨by decide, by decide,
   date_validation_unanchored.1 "2024-01-02T03:04:05.678Z" (by decide) (by decide)⟩

/- ## Export fold characterisation (for C4 and C8) -/

/-- Per-collection contribution of one export iteration: files written,
checksum entries recorded, error entries recorded. -/
def colOut (hash : String → String) (render : List JSValue → Except String String)
    (format : DataFormat) (c : ExpCollection) :
    List (String × String) × List (String × String) × List (String × String) :=
  let fileName := c.name ++ "." ++ extOf format
  if c.docs.length = 0 then
    let emptyContent := if format = .json then "[]" else ""
    ([(fileName, emptyContent)], [(fileName, hash emptyContent)], [])
  else
    match (match c.streamFail with
           | some r => Except.error r
           | none => render c.docs) with
    | .error msg => ([], [], [(c.name, msg)])
    | .ok content => ([(fileName, content)], [(fileName, hash content)], [])

/-- All files written over a collection list. -/
def expFiles (hash : String → String) (render : List JSValue → Except String String)
    (format : DataFormat) : List ExpCollection → List (String × String)
  | [] => []
  | c :: rest => (colOut hash render format c).1 ++ expFiles hash render format rest

/-- All checksum entries recorded over a collection list. -/
def expChecks (hash : String → String) (render : List JSValue → Except String String)
    (format : DataFormat) : List ExpCollection → List (String × String)
  | [] => []
  | c :: rest => (colOut hash render format c).2.1 ++ expChecks hash render format rest

/-- All error entries recorded over a collection list. -/
def expErrs (hash : String → String) (render : List JSValue → Except String String)
    (format : DataFormat) : List ExpCollection → List (String × String)
  | [] => []
  | c :: rest => (colOut hash render format c).2.2 ++ expErrs hash render format rest

theorem exportStep_colOut (hash : String → String)
    (render : List JSValue → Except String String) (format : DataFormat)
    (st : List (String × String) × List (String × String) × List (String × String) × Nat)
    (c : ExpCollection) :
    exportStep hash render format st c =
      (st.1 ++ (colOut hash render format c).1,
       st.2.1 ++ (colOut hash render format c).2.1,
       st.2.2.1 ++ (colOut hash render format c).2.2,
       st.2.2.2 + 1) := by
  unfold exportStep colOut
  by_cases h0 : c.docs.length = 0
  · simp [h0]
  · simp only [if_neg h0]
    cases hsf : c.streamFail with
    | none =>
      cases hr : render c.docs with
      | error m => simp [hr]
      | ok ct => simp [hr]
    | some r => simp

theorem exportFold_spec (hash : String → String)
    (render : List JSValue → Except String String) (format : DataFormat) :
    ∀ (cs : List ExpCollection)
      (st : List (String × String) × List (String × String) × List (String × String) × Nat),
      cs.foldl (exportStep hash render format) st =
        (st.1 ++ expFiles hash render format cs,
         st.2.1 ++ expChecks hash render format cs,
         st.2.2.1 ++ expErrs hash render format cs,
         st.2.2.2 + cs.length) := by
  intro cs
  induction cs with
  | nil => intro st; simp [expFiles, expChecks, expErrs]
  | cons c rest ih =>
    intro st
    simp only [List.foldl_cons, exportStep_colOut, ih, expFiles, expChecks, expErrs,
      List.length_cons, Prod.mk.injEq]
    refine ⟨by simp [List.append_assoc], by simp [List.append_assoc],
      by simp [List.append_assoc], by omega⟩

/-- `exportCollections` on a nonempty list, in terms of the per-collection
contributions. -/
theorem exportCollections_spec (hash : String → String)
    (render : List JSValue → Except String String) (format : DataFormat)
    (cs : List ExpCollection) (h : cs ≠ []) :
    exportCollections hash render format cs =
      { files := expFiles hash render format cs,
        checksums := expChecks hash render format cs,
        errors := expErrs hash render format cs,
        manifest :=
          if (expChecks hash render format cs).isEmpty then none
          else some (String.intercalate "\n"
            ((expChecks hash render format cs).map (fun p => p.2 ++ "  " ++ p.1))),
        completed := cs.length } := by
  unfold exportCollections
  rw [if_neg (by simpa [List.isEmpty_iff] using h)]
  simp [exportFold_spec]

theorem expFiles_append (hash : String → String)
    (render : List JSValue → Except String String) (format : DataFormat)
    (l1 l2 : List ExpCollection) :
    expFiles hash render format (l1 ++ l2) =
      expFiles hash render format l1 ++ expFiles hash render format l2 := by
  induction l1 with
  | nil => simp [expFiles]
  | cons c rest ih => simp [expFiles, ih]

theorem expChecks_append (hash : String → String)
    (render : List JSValue → Except String String) (format : DataFormat)
    (l1 l2 : List ExpCollection) :
    expChecks hash render format (l1 ++ l2) =
      expChecks hash render format l1 ++ expChecks hash render format l2 := by
  induction l1 with
  | nil => simp [expChecks]
  | cons c rest ih => simp [expChecks, ih]

theorem expErrs_append (hash : String → String)
    (render : List JSValue → Except String String) (format : DataFormat)
    (l1 l2 : List ExpCollection) :
    expErrs hash render format (l1 ++ l2) =
      expErrs hash render format l1 ++ expErrs hash render format l2 := by
  induction l1 with
  | nil => simp [expErrs]
  | cons c rest ih => simp [expErrs, ih]

/-- Every error entry carries the name of the collection it came from. -/
theorem colOut_err_name (hash : String → String)
    (render : List JSValue → Except String String) (format : DataFormat)
    (c : ExpCollection) (p : String × String) (hp : p ∈ (colOut hash render format c).2.2) :
    p.1 = c.name := by
  unfold colOut at hp
  by_cases h0 : c.docs.length = 0
  · simp [h0] at hp
  · simp only [if_neg h0] at hp
    cases hsf : c.streamFail with
    | none =>
      rw [hsf] at hp
      cases hr : render c.docs with
      | error m => rw [hr] at hp; simp at hp; simp [hp]
      | ok ct => rw [hr] at hp; simp at hp
    | some r => rw [hsf] at hp; simp at hp; simp [hp]

theorem expErrs_name (hash : String → String)
    (render : List JSValue → Except String String) (format : DataFormat) :
    ∀ (cs : List ExpCollection) (p : String × String),
      p ∈ expErrs hash render format cs → ∃ x ∈ cs, p.1 = x.name := by
  intro cs
  induction cs with
  | nil => intro p hp; simp [expErrs] at hp
  | cons c rest ih =>
    intro p hp
    simp only [expErrs, List.mem_append] at hp
    cases hp with
    | inl h => exact ⟨c, by simp, colOut_err_name hash render format c p h⟩
    | inr h =>
      obtain ⟨x, hx, hn⟩ := ih p h
      exact ⟨x, by simp [hx], hn⟩

/-- The contribution of a collection with no documents. -/
theorem colOut_empty_docs (hash : String → String)
    (render : List JSValue → Except String String) (format : DataFormat)
    (c : ExpCollection) (hdocs : c.docs = []) :
    colOut hash render format c =
      ([(c.name ++ "." ++ extOf format, if format = .json then "[]" else "")],
       [(c.name ++ "." ++ extOf format, hash (if format = .json then "[]" else ""))],
       []) := by
  simp [colOut, hdocs]

/-- The contribution of a nonempty collection whose stream fails. -/
theorem colOut_fail (hash : String → String)
    (render : List JSValue → Except String String) (format : DataFormat)
    (c : ExpCollection) (r : String) (hdocs : c.docs ≠ []) (hfail : c.streamFail = some r) :
    colOut hash render format c = ([], [], [(c.name, r)]) := by
  have h0 : ¬(c.docs.length = 0) := by simpa [List.length_eq_zero] using hdocs
  simp [colOut, h0, hfail]

/- ## C4: collections with zero documents -/

/-- Counterexample to C4 as stated: exporting a single empty collection
writes a `[]` data file, records a checksum (hence writes a manifest) and
reports no error — the collection is not skipped. -/
theorem empty_export_cex :
    exportCollections (fun _ => "aa") (fun _ => .ok "zz") .json [⟨"c", [], none⟩] =
      ⟨[("c.json", "[]")], [("c.json", "aa")], [], some "aa  c.json", 1⟩ ∧
    [("c.json", "[]")] ≠ ([] : List (String × String)) :=
  ⟨rfl, by decide⟩

/-- C4 (amended): a collection with zero documents is not skipped — its
data file is written anyway (`[]` for JSON, an empty file for CSV), its
checksum is recorded so the manifest is written, and (when no other
collection shares its name) no error is reported for it. -/
theorem empty_collection_exported (hash : String → String)
    (render : List JSValue → Except String String) (format : DataFormat)
    (pre suf : List ExpCollection) (c : ExpCollection) (hdocs : c.docs = [])
    (hn : ∀ x ∈ pre ++ suf, x.name ≠ c.name) :
    (c.name ++ "." ++ extOf format, if format = .json then "[]" else "") ∈
      (exportCollections hash render format (pre ++ c :: suf)).files ∧
    (c.name ++ "." ++ extOf format, hash (if format = .json then "[]" else "")) ∈
      (exportCollections hash render format (pre ++ c :: suf)).checksums ∧
    (exportCollections hash render format (pre ++ c :: suf)).manifest ≠ none ∧
    ∀ r, (c.name, r) ∉ (exportCollections hash render format (pre ++ c :: suf)).errors := by
  have hne : pre ++ c :: suf ≠ [] := by simp
  have hsplit : pre ++ c :: suf = pre ++ [c] ++ suf := by simp
  have hco := colOut_empty_docs hash render format c hdocs
  rw [exportCollections_spec hash render format _ hne]
  have hmemc : (c.name ++ "." ++ extOf format, hash (if format = .json then "[]" else "")) ∈
      expChecks hash render format (pre ++ c :: suf) := by
    rw [hsplit, expChecks_append, expChecks_append]
    simp [expChecks, hco]
  refine ⟨?_, hmemc, ?_, ?_⟩
  · rw [hsplit, expFiles_append, expFiles_append]
    simp [expFiles, hco]
  · have hne2 : expChecks hash render format (pre ++ c :: suf) ≠ [] :=
      List.ne_nil_of_mem hmemc
    simp [List.isEmpty_iff, hne2]
  · intro r hr
    rw [hsplit, expErrs_append, expErrs_append] at hr
    have hc0 : expErrs hash render format [c] = [] := by simp [expErrs, hco]
    rw [hc0] at hr
    simp only [List.append_nil, List.mem_append] at hr
    cases hr with
    | inl hp =>
      obtain ⟨x, hx, hxn⟩ := expErrs_name hash render format pre (c.name, r) hp
      exact hn x (by simp [hx]) hxn.symm
    | inr hp =>
      obtain ⟨x, hx, hxn⟩ := expErrs_name hash render format suf (c.name, r) hp
      exact hn x (by simp [hx]) hxn.symm

/-- Closed witness for the amended C4, at a single empty JSON
collection. -/
theorem empty_collection_exported_witness :
    ("c" ++ "." ++ extOf .json, if DataFormat.json = .json then "[]" else "") ∈
      (exportCollections (fun _ => "aa") (fun _ => .ok "zz") .json [⟨"c", [], none⟩]).files ∧
    (exportCollections (fun _ => "aa") (fun _ => .ok "zz") .json
        [⟨"c", [], none⟩]).manifest ≠ none :=
  ⟨(empty_collection_exported (fun _ => "aa") (fun _ => .ok "zz") .json [] []
      ⟨"c", [], none⟩ rfl (by simp)).1,
   (empty_collection_exported (fun _ => "aa") (fun _ => .ok "zz") .json [] []
      ⟨"c", [], none⟩ rfl (by simp)).2.2.1⟩

/- ## C8: per-collection failure isolation of the export run -/

/-- C8: a stream/write failure while exporting one (nonempty) collection
is caught by the per-collection handler: the run's files, checksums and
manifest are exactly those of the run without that collection, the
failure is recorded in the error list as `(collection, reason)` in
position (the other collections' errors are unaffected), and the loop
still completes over every collection. -/
theorem export_failure_isolated (hash : String → String)
    (render : List JSValue → Except String String) (format : DataFormat)
    (pre suf : List ExpCollection) (c : ExpCollection) (r : String)
    (hdocs : c.docs ≠ []) (hfail : c.streamFail = some r) :
    (exportCollections hash render format (pre ++ c :: suf)).files =
      (exportCollections hash render format (pre ++ suf)).files ∧
    (exportCollections hash render format (pre ++ c :: suf)).checksums =
      (exportCollections hash render format (pre ++ suf)).checksums ∧
    (exportCollections hash render format (pre ++ c :: suf)).manifest =
      (exportCollections hash render format (pre ++ suf)).manifest ∧
    (∃ e1 e2, (exportCollections hash render format (pre ++ c :: suf)).errors =
        e1 ++ (c.name, r) :: e2 ∧
      (exportCollections hash render format (pre ++ suf)).errors = e1 ++ e2) ∧
    (exportCollections hash render format (pre ++ c :: suf)).completed =
      (pre ++ c :: suf).length := by
  have hco := colOut_fail hash render format c r hdocs hfail
  have hne1 : pre ++ c :: suf ≠ [] := by simp
  have hsplit : pre ++ c :: suf = pre ++ [c] ++ suf := by simp
  have hf : expFiles hash render format (pre ++ c :: suf) =
      expFiles hash render format pre ++ expFiles hash render format suf := by
    rw [hsplit, expFiles_append, expFiles_append]
    simp [expFiles, hco]
  have hk : expChecks hash render format (pre ++ c :: suf) =
      expChecks hash render format pre ++ expChecks hash render format suf := by
    rw [hsplit, expChecks_append, expChecks_append]
    simp [expChecks, hco]
  have he : expErrs hash render format (pre ++ c :: suf) =
      expErrs hash render format pre ++ (c.name, r) :: expErrs hash render format suf := by
    rw [hsplit, expErrs_append, expErrs_append]
    simp [expErrs, hco]
  rw [exportCollections_spec hash render format _ hne1]
  by_cases hps : pre ++ suf = []
  · obtain ⟨hpre, hsuf⟩ := List.append_eq_nil.mp hps
    subst hpre; subst hsuf
    have hE : exportCollections hash render format ([] ++ []) = ⟨[], [], [], none, 0⟩ := rfl
    rw [hE]
    have hf0 : expFiles hash render format [] = [] := rfl
    have hk0 : expChecks hash render format [] = [] := rfl
    have he0 : expErrs hash render format [] = [] := rfl
    refine ⟨by simpa [hf0] using hf, by simpa [hk0] using hk, ?_,
      ⟨[], [], by simpa [he0] using he, rfl⟩, by simp⟩
    have hkc : expChecks hash render format ([] ++ c :: []) = [] := by
      simp only [List.nil_append]
      simp [expChecks, hco]
    rw [hkc]
    simp
  · rw [exportCollections_spec hash render format _ hps]
    refine ⟨hf.trans (expFiles_append hash render format pre suf).symm,
      hk.trans (expChecks_append hash render format pre suf).symm, ?_,
      ⟨expErrs hash render format pre, expErrs hash render format suf, ?_, ?_⟩, rfl⟩
    · have hkk : expChecks hash render format (pre ++ c :: suf) =
          expChecks hash render format (pre ++ suf) :=
        hk.trans (expChecks_append hash render format pre suf).symm
      rw [hkk]
    · exact he
    · exact expErrs_append hash render format pre suf

/-- Closed witness for C8, with one succeeding and one failing
collection. -/
theorem export_failure_isolated_witness :
    (exportCollections (fun _ => "aa") (fun _ => .ok "zz") .json
        [⟨"a", [JSValue.vnull], none⟩, ⟨"b", [JSValue.vnull], some "io"⟩]).files =
      (exportCollections (fun _ => "aa") (fun _ => .ok "zz") .json
        [⟨"a", [JSValue.vnull], none⟩]).files ∧
    (∃ e1 e2, (exportCollections (fun _ => "aa") (fun _ => .ok "zz") .json
        [⟨"a", [JSValue.vnull], none⟩, ⟨"b", [JSValue.vnull], some "io"⟩]).errors =
        e1 ++ ("b", "io") :: e2 ∧
      (exportCollections (fun _ => "aa") (fun _ => .ok "zz") .json
        [⟨"a", [JSValue.vnull], none⟩]).errors = e1 ++ e2) :=
  ⟨(export_failure_isolated (fun _ => "aa") (fun _ => .ok "zz") .json
      [⟨"a", [JSValue.vnull], none⟩] [] ⟨"b", [JSValue.vnull], some "io"⟩ "io"
      (by simp) rfl).1,
   (export_failure_isolated (fun _ => "aa") (fun _ => .ok "zz") .json
      [⟨"a", [JSValue.vnull], none⟩] [] ⟨"b", [JSValue.vnull], some "io"⟩ "io"
      (by simp) rfl).2.2.2.1⟩

/- ## Import fold characterisation (for C3 and C10) -/

theorem except_pure {α : Type} (a : α) : (pure a : Except String α) = Except.ok a := rfl

theorem except_throw {α : Type} (e : String) :
    (throw e : Except String α) = Except.error e := rfl

/-- The database component of one processing step (the error accumulator
never influences it). -/
def dbStep (verificationEnabled : Bool) (checksumMap : List (String × String))
    (hash : String → String) (parseJson : String → Except String (List JSValue))
    (clearCollections : Bool) (strategy : ConflictStrategy) (batchSize : Nat)
    (countErrors : List (String × String)) (db : DbState)
    (info : ImpFile × String × Nat) : DbState :=
  (phase2File verificationEnabled checksumMap hash parseJson clearCollections strategy
    batchSize countErrors (db, []) info).1

theorem phase2File_fst (v : Bool) (ck : List (String × String)) (hash : String → String)
    (pj : String → Except String (List JSValue)) (cl : Bool) (strat : ConflictStrategy)
    (bs : Nat) (ce : List (String × String)) (st : DbState × List (String × String))
    (info : ImpFile × String × Nat) :
    (phase2File v ck hash pj cl strat bs ce st info).1 =
      dbStep v ck hash pj cl strat bs ce st.1 info := by
  unfold dbStep phase2File
  by_cases hc : (ce.filter (fun e => e.1 = info.1.name)).isEmpty = false
  · rw [if_pos hc, if_pos hc]
  · rw [if_neg hc, if_neg hc]
    simp only []
    cases hres : (do
        if v = true then
          match List.lookup info.1.name ck with
          | none => throw ("No checksum found for " ++ info.1.name ++ ".")
          | some expected =>
            if hash info.1.content ≠ expected then
              throw ("Checksum mismatch for " ++ info.1.name ++ "! File may be corrupt.")
            else pure ()
        else pure ()
        match pj info.1.content with
        | .error msg =>
          throw ("Checksum mismatch for " ++ info.1.name ++
            "! File may be corrupt (parsing error: " ++ msg ++ ").")
        | .ok docs =>
          pure (setCol st.1 info.2.1
            (runFileWrites (getCol st.1 info.2.1) docs cl strat bs)) :
        Except String DbState) with
    | ok db' => rfl
    | error m => rfl

theorem except_bind_err {α β : Type} (e : String) (f : α → Except String β) :
    (Except.error e >>= f) = Except.error e := rfl

theorem isEmpty_false_of_mem {α : Type} {x : α} {l : List α} (h : x ∈ l) :
    l.isEmpty = false := by
  cases l with
  | nil => simp at h
  | cons a as => rfl

theorem phase2File_snd (v : Bool) (ck : List (String × String)) (hash : String → String)
    (pj : String → Except String (List JSValue)) (cl : Bool) (strat : ConflictStrategy)
    (bs : Nat) (ce : List (String × String)) (st : DbState × List (String × String))
    (info : ImpFile × String × Nat) :
    ∃ add, (phase2File v ck hash pj cl strat bs ce st info).2 = st.2 ++ add := by
  unfold phase2File
  by_cases hc : (ce.filter (fun e => e.1 = info.1.name)).isEmpty = false
  · rw [if_pos hc]
    exact ⟨[], by simp⟩
  · rw [if_neg hc]
    simp only []
    cases hres : (do
        if v = true then
          match List.lookup info.1.name ck with
          | none => throw ("No checksum found for " ++ info.1.name ++ ".")
          | some expected =>
            if hash info.1.content ≠ expected then
              throw ("Checksum mismatch for " ++ info.1.name ++ "! File may be corrupt.")
            else pure ()
        else pure ()
        match pj info.1.content with
        | .error msg =>
          throw ("Checksum mismatch for " ++ info.1.name ++
            "! File may be corrupt (parsing error: " ++ msg ++ ").")
        | .ok docs =>
          pure (setCol st.1 info.2.1
            (runFileWrites (getCol st.1 info.2.1) docs cl strat bs)) :
        Except String DbState) with
    | ok db' => exact ⟨[], by simp⟩
    | error m => exact ⟨[(info.1.name, m)], rfl⟩

theorem fold_phase2_fst (v : Bool) (ck : List (String × String)) (hash : String → String)
    (pj : String → Except String (List JSValue)) (cl : Bool) (strat : ConflictStrategy)
    (bs : Nat) (ce : List (String × String)) :
    ∀ (infos : List (ImpFile × String × Nat)) (st : DbState × List (String × String)),
      (infos.foldl (phase2File v ck hash pj cl strat bs ce) st).1 =
        infos.foldl (dbStep v ck hash pj cl strat bs ce) st.1 := by
  intro infos
  induction infos with
  | nil => intro st; rfl
  | cons i rest ih =>
    intro st
    simp only [List.foldl_cons]
    rw [ih, phase2File_fst]

theorem fold_phase2_snd (v : Bool) (ck : List (String × String)) (hash : String → String)
    (pj : String → Except String (List JSValue)) (cl : Bool) (strat : ConflictStrategy)
    (bs : Nat) (ce : List (String × String)) :
    ∀ (infos : List (ImpFile × String × Nat)) (st : DbState × List (String × String)),
      ∃ add, (infos.foldl (phase2File v ck hash pj cl strat bs ce) st).2 = st.2 ++ add := by
  intro infos
  induction infos with
  | nil => intro st; exact ⟨[], by simp⟩
  | cons i rest ih =>
    intro st
    simp only [List.foldl_cons]
    obtain ⟨a2, h2⟩ := ih (phase2File v ck hash pj cl strat bs ce st i)
    obtain ⟨a1, h1⟩ := phase2File_snd v ck hash pj cl strat bs ce st i
    exact ⟨a1 ++ a2, by rw [h2, h1, List.append_assoc]⟩

theorem dbStep_skip (v : Bool) (ck : List (String × String)) (hash : String → String)
    (pj : String → Except String (List JSValue)) (cl : Bool) (strat : ConflictStrategy)
    (bs : Nat) (ce : List (String × String)) (db : DbState) (info : ImpFile × String × Nat)
    (hskip : (ce.filter (fun e => e.1 = info.1.name)).isEmpty = false) :
    dbStep v ck hash pj cl strat bs ce db info = db := by
  unfold dbStep phase2File
  rw [if_pos hskip]

theorem dbStep_ce_indep (v : Bool) (ck : List (String × String)) (hash : String → String)
    (pj : String → Except String (List JSValue)) (cl : Bool) (strat : ConflictStrategy)
    (bs : Nat) (ce ce' : List (String × String)) (db : DbState) (info : ImpFile × String × Nat)
    (h : (ce.filter (fun e => e.1 = info.1.name)).isEmpty =
         (ce'.filter (fun e => e.1 = info.1.name)).isEmpty) :
    dbStep v ck hash pj cl strat bs ce db info =
      dbStep v ck hash pj cl strat bs ce' db info := by
  unfold dbStep phase2File
  rw [h]

theorem foldl_dbStep_congr (v : Bool) (ck : List (String × String)) (hash : String → String)
    (pj : String → Except String (List JSValue)) (cl : Bool) (strat : ConflictStrategy)
    (bs : Nat) (ce ce' : List (String × String)) :
    ∀ (infos : List (ImpFile × String × Nat)),
      (∀ i ∈ infos, (ce.filter (fun e => e.1 = i.1.name)).isEmpty =
        (ce'.filter (fun e => e.1 = i.1.name)).isEmpty) →
      ∀ db, infos.foldl (dbStep v ck hash pj cl strat bs ce) db =
        infos.foldl (dbStep v ck hash pj cl strat bs ce') db := by
  intro infos
  induction infos with
  | nil => intro _ db; rfl
  | cons i rest ih =>
    intro hall db
    simp only [List.foldl_cons]
    rw [dbStep_ce_indep v ck hash pj cl strat bs ce ce' db i (hall i (by simp))]
    exact ih (fun j hj => hall j (by simp [hj])) _

/-- The info entry produced for a file is that file. -/
theorem phase1File_file (v : Bool) (ck : List (String × String)) (hash : String → String)
    (pj : String → Except String (List JSValue)) (g : ImpFile) (p : ImpFile × String × Nat)
    (h : (phase1File v ck hash pj g).2 = some p) : p.1 = g := by
  unfold phase1File at h
  split at h
  · simp at h
  · repeat split at h
    all_goals
      simp only [except_throw, except_bind_err, except_pure, except_bind_ok,
        Option.some.injEq] at h
    all_goals first
      | rw [← h]
      | (split at h <;> (simp only [Option.some.injEq] at h; rw [← h]))

/-- The checksum map loaded from the optional manifest. -/
def ckOf : Option String → List (String × String)
  | none => []
  | some content => parseManifest content

/-- Whether verification is enabled for the optional manifest. -/
def verifOf : Option String → Bool
  | none => false
  | some content => !(parseManifest content).isEmpty

/-- The counting-pass results over the data files of a listing. -/
def phase1Of (hash : String → String) (pj : String → Except String (List JSValue))
    (manifest : Option String) (files : List ImpFile) :
    List (Option (String × String) × Option (ImpFile × String × Nat)) :=
  (files.filter (fun f => strEndsWith f.name ".json")).map
    (phase1File (verifOf manifest) (ckOf manifest) hash pj)

/-- The count errors of a listing. -/
def ceOf (hash : String → String) (pj : String → Except String (List JSValue))
    (manifest : Option String) (files : List ImpFile) : List (String × String) :=
  (phase1Of hash pj manifest files).filterMap Prod.fst

/-- The processing list of a listing. -/
def ciOf (hash : String → String) (pj : String → Except String (List JSValue))
    (manifest : Option String) (files : List ImpFile) : List (ImpFile × String × Nat) :=
  (phase1Of hash pj manifest files).filterMap Prod.snd

/-- `importCollections` on the main path (some data file, some
processable file), in terms of the two passes. -/
theorem importCollections_main (hash : String → String)
    (pj : String → Except String (List JSValue)) (db : DbState) (files : List ImpFile)
    (manifest : Option String) (clear : Bool) (strat : ConflictStrategy) (bs : Nat)
    (h1 : (files.filter (fun f => strEndsWith f.name ".json")).isEmpty = false)
    (h2 : (ciOf hash pj manifest files).isEmpty = false) :
    importCollections hash pj db files manifest clear strat bs =
      { db := ((ciOf hash pj manifest files).foldl
          (phase2File (verifOf manifest) (ckOf manifest) hash pj clear strat bs
            (ceOf hash pj manifest files)) (db, ceOf hash pj manifest files)).1,
        errors := ((ciOf hash pj manifest files).foldl
          (phase2File (verifOf manifest) (ckOf manifest) hash pj clear strat bs
            (ceOf hash pj manifest files)) (db, ceOf hash pj manifest files)).2,
        verificationEnabled := verifOf manifest,
        completed := true } := by
  have h2' := h2
  unfold ciOf phase1Of at h2'
  simp only [importCollections, h1, Bool.false_eq_true, if_false]
  cases manifest with
  | none =>
    simp only [verifOf, ckOf] at h2' ⊢
    simp only [h2', Bool.false_eq_true, if_false]
    unfold ciOf ceOf phase1Of verifOf ckOf
    simp
  | some content =>
    simp only [verifOf, ckOf] at h2' ⊢
    simp only [h2', Bool.false_eq_true, if_false]
    unfold ciOf ceOf phase1Of verifOf ckOf
    simp

/-- The counting pass on a file whose content fails to parse (with
verification disabled): the parse error is wrapped in the checksum
mismatch message. -/
theorem phase1File_parse_error (hash : String → String)
    (pj : String → Except String (List JSValue)) (f : ImpFile) (m : String) (cn : String)
    (hcn : getCollectionName f.name = some cn)
    (hsize : f.content.utf8ByteSize > 2)
    (hparse : pj f.content = .error m) :
    phase1File false [] hash pj f =
      (some (f.name, "Checksum mismatch for " ++ f.name ++
        "! File may be corrupt (parsing error: " ++ m ++ ")."),
       some (f, cn, 1)) := by
  unfold phase1File
  rw [hcn]
  simp [hsize, hparse, except_pure, except_throw, except_bind_ok, except_bind_err]

/-- The counting pass on a file with no manifest entry (verification
enabled). -/
theorem phase1File_no_checksum (ck : List (String × String)) (hash : String → String)
    (pj : String → Except String (List JSValue)) (f : ImpFile) (cn : String)
    (hcn : getCollectionName f.name = some cn)
    (hnone : List.lookup f.name ck = none) :
    phase1File true ck hash pj f =
      (some (f.name, "No checksum found for " ++ f.name ++ "."), some (f, cn, 1)) := by
  unfold phase1File
  rw [hcn]
  simp [hnone, except_pure, except_throw, except_bind_ok, except_bind_err]

/-- The counting pass on a file whose digest disagrees with the manifest
(verification enabled). -/
theorem phase1File_mismatch (ck : List (String × String)) (hash : String → String)
    (pj : String → Except String (List JSValue)) (f : ImpFile) (cn : String) (e : String)
    (hcn : getCollectionName f.name = some cn)
    (hsome : List.lookup f.name ck = some e)
    (hne : hash f.content ≠ e) :
    phase1File true ck hash pj f =
      (some (f.name, "Checksum mismatch for " ++ f.name ++ "! File may be corrupt."),
       some (f, cn, 1)) := by
  unfold phase1File
  rw [hcn]
  simp [hsome, hne, except_pure, except_throw, except_bind_ok, except_bind_err]

/- ## C10: parse failures are reported as checksum mismatches -/

/-- C10: when a data file's content fails to parse, the error recorded
for it in the run summary is the misleading
`Checksum mismatch for <file>! File may be corrupt (parsing error: <e>).`
message — here with no manifest at all, so no checksum verification ever
ran. -/
theorem parse_error_reported (hash : String → String)
    (pj : String → Except String (List JSValue)) (db : DbState)
    (pre suf : List ImpFile) (f : ImpFile) (m : String)
    (clear : Bool) (strat : ConflictStrategy) (bs : Nat)
    (hend : strEndsWith f.name ".json" = true)
    (hcn : (getCollectionName f.name).isSome = true)
    (hsize : f.content.utf8ByteSize > 2)
    (hparse : pj f.content = .error m) :
    (f.name, "Checksum mismatch for " ++ f.name ++
        "! File may be corrupt (parsing error: " ++ m ++ ").") ∈
      (importCollections hash pj db (pre ++ f :: suf) none clear strat bs).errors := by
  obtain ⟨cn, hcn'⟩ := Option.isSome_iff_exists.mp hcn
  have hp1 := phase1File_parse_error hash pj f m cn hcn' hsize hparse
  have hmemf : f ∈ (pre ++ f :: suf).filter (fun g => strEndsWith g.name ".json") :=
    List.mem_filter.mpr ⟨by simp, hend⟩
  have h1 : ((pre ++ f :: suf).filter (fun g => strEndsWith g.name ".json")).isEmpty = false :=
    isEmpty_false_of_mem hmemf
  have hmemp : phase1File (verifOf none) (ckOf none) hash pj f ∈
      phase1Of hash pj none (pre ++ f :: suf) :=
    List.mem_map_of_mem _ hmemf
  have hfe : phase1File (verifOf none) (ckOf none) hash pj f =
      (some (f.name, "Checksum mismatch for " ++ f.name ++
        "! File may be corrupt (parsing error: " ++ m ++ ")."),
       some (f, cn, 1)) := hp1
  have hci : (f, cn, 1) ∈ ciOf hash pj none (pre ++ f :: suf) :=
    List.mem_filterMap.mpr ⟨_, hmemp, by rw [hfe]⟩
  have h2 : (ciOf hash pj none (pre ++ f :: suf)).isEmpty = false :=
    isEmpty_false_of_mem hci
  rw [importCollections_main hash pj db _ none clear strat bs h1 h2]
  obtain ⟨add, hadd⟩ := fold_phase2_snd (verifOf none) (ckOf none) hash pj clear strat bs
    (ceOf hash pj none (pre ++ f :: suf)) (ciOf hash pj none (pre ++ f :: suf))
    (db, ceOf hash pj none (pre ++ f :: suf))
  have hce : (f.name, "Checksum mismatch for " ++ f.name ++
      "! File may be corrupt (parsing error: " ++ m ++ ").") ∈
      ceOf hash pj none (pre ++ f :: suf) :=
    List.mem_filterMap.mpr ⟨_, hmemp, by rw [hfe]⟩
  simp only [hadd]
  exact List.mem_append_left _ hce

/-- Closed witness for C10, at a one-file listing whose parse fails. -/
theorem parse_error_reported_witness :
    ("c.json", "Checksum mismatch for " ++ "c.json" ++
        "! File may be corrupt (parsing error: " ++ "bad" ++ ").") ∈
      (importCollections (fun _ => "h") (fun _ => .error "bad") [] [⟨"c.json", "xyz"⟩]
        none false .upsert 10).errors :=
  parse_error_reported (fun _ => "h") (fun _ => .error "bad") [] [] [] ⟨"c.json", "xyz"⟩
    "bad" false .upsert 10 (by decide) (by decide) (by decide) rfl

theorem phase1Of_append (hash : String → String)
    (pj : String → Except String (List JSValue)) (man : Option String)
    (l1 l2 : List ImpFile) :
    phase1Of hash pj man (l1 ++ l2) = phase1Of hash pj man l1 ++ phase1Of hash pj man l2 := by
  simp [phase1Of, List.filter_append]

theorem ceOf_append (hash : String → String)
    (pj : String → Except String (List JSValue)) (man : Option String)
    (l1 l2 : List ImpFile) :
    ceOf hash pj man (l1 ++ l2) = ceOf hash pj man l1 ++ ceOf hash pj man l2 := by
  simp [ceOf, phase1Of_append, List.filterMap_append]

theorem ciOf_append (hash : String → String)
    (pj : String → Except String (List JSValue)) (man : Option String)
    (l1 l2 : List ImpFile) :
    ciOf hash pj man (l1 ++ l2) = ciOf hash pj man l1 ++ ciOf hash pj man l2 := by
  simp [ciOf, phase1Of_append, List.filterMap_append]

/-- Processing entries inherit their file's name. -/
theorem ciOf_name (hash : String → String)
    (pj : String → Except String (List JSValue)) (man : Option String)
    (files : List ImpFile) (nm : String) (hnm : ∀ g ∈ files, g.name ≠ nm) :
    ∀ i ∈ ciOf hash pj man files, i.1.name ≠ nm := by
  intro i hi
  obtain ⟨a, ha, hsnd⟩ := List.mem_filterMap.mp hi
  obtain ⟨g, hg, hga⟩ := List.mem_map.mp ha
  have hig : i.1 = g := phase1File_file (verifOf man) (ckOf man) hash pj g i
    (by rw [hga]; exact hsnd)
  rw [hig]
  exact hnm g (List.mem_of_mem_filter hg)

theorem filter_name_middle (cePre ceSuf : List (String × String)) (fn emsg nm : String)
    (h : fn ≠ nm) :
    (cePre ++ (fn, emsg) :: ceSuf).filter (fun e => e.1 = nm) =
      (cePre ++ ceSuf).filter (fun e => e.1 = nm) := by
  simp [List.filter_append, List.filter_cons, h]

/-- When the counting pass produced no processable entry, the run leaves
the database untouched. -/
theorem importCollections_db_early (hash : String → String)
    (pj : String → Except String (List JSValue)) (db : DbState) (files : List ImpFile)
    (man : Option String) (clear : Bool) (strat : ConflictStrategy) (bs : Nat)
    (h : (ciOf hash pj man files).isEmpty = true) :
    (importCollections hash pj db files man clear strat bs).db = db := by
  have h' := h
  unfold ciOf phase1Of at h'
  simp only [importCollections]
  by_cases hd : (files.filter (fun f => strEndsWith f.name ".json")).isEmpty = true
  · simp [hd]
  · have hd' : (files.filter (fun f => strEndsWith f.name ".json")).isEmpty = false := by
      cases hq : (files.filter (fun f => strEndsWith f.name ".json")).isEmpty
      · rfl
      · exact absurd hq hd
    simp only [hd', Bool.false_eq_true, if_false]
    cases man with
    | none =>
      simp only [verifOf, ckOf, List.filterMap_map] at h'
      simp [h']
    | some content =>
      simp only [verifOf, ckOf, List.filterMap_map] at h'
      simp [h']

/-- A file whose counting pass errored is skipped by the processing pass:
the database ends as in the run without the file, the count error is in
the summary, and the run completes. -/
theorem import_skip_general (hash : String → String)
    (pj : String → Except String (List JSValue)) (db : DbState)
    (pre suf : List ImpFile) (f : ImpFile) (mc : String)
    (clear : Bool) (strat : ConflictStrategy) (bs : Nat) (emsg cn : String)
    (hnames : ∀ g ∈ pre ++ suf, g.name ≠ f.name)
    (hend : strEndsWith f.name ".json" = true)
    (hfe : phase1File (verifOf (some mc)) (ckOf (some mc)) hash pj f =
      (some (f.name, emsg), some (f, cn, 1))) :
    (importCollections hash pj db (pre ++ f :: suf) (some mc) clear strat bs).db =
      (importCollections hash pj db (pre ++ suf) (some mc) clear strat bs).db ∧
    (f.name, emsg) ∈
      (importCollections hash pj db (pre ++ f :: suf) (some mc) clear strat bs).errors ∧
    (importCollections hash pj db (pre ++ f :: suf) (some mc) clear strat bs).completed =
      true := by
  have hmemf : f ∈ (pre ++ f :: suf).filter (fun g => strEndsWith g.name ".json") :=
    List.mem_filter.mpr ⟨by simp, hend⟩
  have h1 : ((pre ++ f :: suf).filter (fun g => strEndsWith g.name ".json")).isEmpty = false :=
    isEmpty_false_of_mem hmemf
  have hmemp : phase1File (verifOf (some mc)) (ckOf (some mc)) hash pj f ∈
      phase1Of hash pj (some mc) (pre ++ f :: suf) :=
    List.mem_map_of_mem _ hmemf
  have hci : (f, cn, 1) ∈ ciOf hash pj (some mc) (pre ++ f :: suf) :=
    List.mem_filterMap.mpr ⟨_, hmemp, by rw [hfe]⟩
  have h2 : (ciOf hash pj (some mc) (pre ++ f :: suf)).isEmpty = false :=
    isEmpty_false_of_mem hci
  have hce : (f.name, emsg) ∈ ceOf hash pj (some mc) (pre ++ f :: suf) :=
    List.mem_filterMap.mpr ⟨_, hmemp, by rw [hfe]⟩
  have hsplit : pre ++ f :: suf = pre ++ [f] ++ suf := by simp
  have hciF : ciOf hash pj (some mc) [f] = [(f, cn, 1)] := by
    simp [ciOf, phase1Of, hend, hfe]
  have hceF : ceOf hash pj (some mc) [f] = [(f.name, emsg)] := by
    simp [ceOf, phase1Of, hend, hfe]
  have hciSplit : ciOf hash pj (some mc) (pre ++ f :: suf) =
      ciOf hash pj (some mc) pre ++ (f, cn, 1) :: ciOf hash pj (some mc) suf := by
    rw [hsplit, ciOf_append, ciOf_append, hciF]
    simp
  have hceSplit : ceOf hash pj (some mc) (pre ++ f :: suf) =
      ceOf hash pj (some mc) pre ++ (f.name, emsg) :: ceOf hash pj (some mc) suf := by
    rw [hsplit, ceOf_append, ceOf_append, hceF]
    simp
  have hfilterEq : ∀ (i : ImpFile × String × Nat), i.1.name ≠ f.name →
      (((ceOf hash pj (some mc) (pre ++ f :: suf)).filter
        (fun e => e.1 = i.1.name)).isEmpty =
       ((ceOf hash pj (some mc) (pre ++ suf)).filter
        (fun e => e.1 = i.1.name)).isEmpty) := by
    intro i hi
    rw [hceSplit, ceOf_append,
      filter_name_middle (ceOf hash pj (some mc) pre) (ceOf hash pj (some mc) suf)
        f.name emsg i.1.name (Ne.symm hi)]
  have hciPreN : ∀ i ∈ ciOf hash pj (some mc) pre, i.1.name ≠ f.name :=
    ciOf_name hash pj (some mc) pre f.name (fun g hg => hnames g (by simp [hg]))
  have hciSufN : ∀ i ∈ ciOf hash pj (some mc) suf, i.1.name ≠ f.name :=
    ciOf_name hash pj (some mc) suf f.name (fun g hg => hnames g (by simp [hg]))
  have hmemFilter : (f.name, emsg) ∈ (ceOf hash pj (some mc) (pre ++ f :: suf)).filter
      (fun e => e.1 = f.name) :=
    List.mem_filter.mpr ⟨hce, by simp⟩
  have hskipF := isEmpty_false_of_mem hmemFilter
  rw [importCollections_main hash pj db _ (some mc) clear strat bs h1 h2]
  refine ⟨?_, ?_, rfl⟩
  · -- the database component
    rw [fold_phase2_fst]
    simp only []
    rw [hciSplit, List.foldl_append, List.foldl_cons]
    rw [dbStep_skip (verifOf (some mc)) (ckOf (some mc)) hash pj clear strat bs
      (ceOf hash pj (some mc) (pre ++ f :: suf)) _ (f, cn, 1) hskipF]
    rw [foldl_dbStep_congr (verifOf (some mc)) (ckOf (some mc)) hash pj clear strat bs
      (ceOf hash pj (some mc) (pre ++ f :: suf)) (ceOf hash pj (some mc) (pre ++ suf))
      (ciOf hash pj (some mc) pre) (fun i hi => hfilterEq i (hciPreN i hi)) db]
    rw [foldl_dbStep_congr (verifOf (some mc)) (ckOf (some mc)) hash pj clear strat bs
      (ceOf hash pj (some mc) (pre ++ f :: suf)) (ceOf hash pj (some mc) (pre ++ suf))
      (ciOf hash pj (some mc) suf) (fun i hi => hfilterEq i (hciSufN i hi))]
    rw [← List.foldl_append, ← ciOf_append]
    by_cases hciE : (ciOf hash pj (some mc) (pre ++ suf)).isEmpty = true
    · rw [List.isEmpty_iff.mp hciE]
      rw [(importCollections_db_early hash pj db (pre ++ suf) (some mc) clear strat bs hciE)]
      rfl
    · have h2' : (ciOf hash pj (some mc) (pre ++ suf)).isEmpty = false := by
        cases hq : (ciOf hash pj (some mc) (pre ++ suf)).isEmpty
        · rfl
        · exact absurd hq hciE
      have h1' : ((pre ++ suf).filter (fun g => strEndsWith g.name ".json")).isEmpty =
          false := by
        cases hq : ((pre ++ suf).filter (fun g => strEndsWith g.name ".json")).isEmpty
        · rfl
        · exfalso
          have hnil := List.isEmpty_iff.mp hq
          have hz : ciOf hash pj (some mc) (pre ++ suf) = [] := by
            unfold ciOf phase1Of
            rw [hnil]
            simp
          rw [hz] at h2'
          simp at h2'
      rw [importCollections_main hash pj db _ (some mc) clear strat bs h1' h2']
      rw [fold_phase2_fst]
  · -- the error entry
    obtain ⟨add, hadd⟩ := fold_phase2_snd (verifOf (some mc)) (ckOf (some mc)) hash pj
      clear strat bs (ceOf hash pj (some mc) (pre ++ f :: suf))
      (ciOf hash pj (some mc) (pre ++ f :: suf))
      (db, ceOf hash pj (some mc) (pre ++ f :: suf))
    simp only [hadd]
    exact List.mem_append_left _ hce

/- ## C3: checksum verification failures are isolated -/

/-- C3: with verification enabled (manifest present and nonempty), a data
file with no manifest entry or with a disagreeing digest is reported in
the run summary with the dedicated message (`No checksum found for <f>.`
or `Checksum mismatch for <f>! File may be corrupt.`), the database ends
exactly as in the run without that file, and the run still completes
(no abort). -/
theorem checksum_failure_isolated (hash : String → String)
    (pj : String → Except String (List JSValue)) (db : DbState)
    (pre suf : List ImpFile) (f : ImpFile) (mc : String)
    (clear : Bool) (strat : ConflictStrategy) (bs : Nat)
    (hnames : ∀ g ∈ pre ++ suf, g.name ≠ f.name)
    (hend : strEndsWith f.name ".json" = true)
    (hcn : (getCollectionName f.name).isSome = true)
    (hman : (parseManifest mc).isEmpty = false)
    (hver : List.lookup f.name (parseManifest mc) = none ∨
      ∃ e, List.lookup f.name (parseManifest mc) = some e ∧ hash f.content ≠ e) :
    (importCollections hash pj db (pre ++ f :: suf) (some mc) clear strat bs).db =
      (importCollections hash pj db (pre ++ suf) (some mc) clear strat bs).db ∧
    (importCollections hash pj db (pre ++ f :: suf) (some mc) clear strat bs).completed =
      true ∧
    (List.lookup f.name (parseManifest mc) = none →
      (f.name, "No checksum found for " ++ f.name ++ ".") ∈
        (importCollections hash pj db (pre ++ f :: suf) (some mc) clear strat bs).errors) ∧
    (∀ e, List.lookup f.name (parseManifest mc) = some e → hash f.content ≠ e →
      (f.name, "Checksum mismatch for " ++ f.name ++ "! File may be corrupt.") ∈
        (importCollections hash pj db (pre ++ f :: suf) (some mc) clear strat bs).errors) := by
  obtain ⟨cn, hcn'⟩ := Option.isSome_iff_exists.mp hcn
  have hV : verifOf (some mc) = true := by simp [verifOf, hman]
  rcases hver with hnone | ⟨e, hsome, hne⟩
  · have hp1 : phase1File (verifOf (some mc)) (ckOf (some mc)) hash pj f =
        (some (f.name, "No checksum found for " ++ f.name ++ "."), some (f, cn, 1)) := by
      rw [hV]
      exact phase1File_no_checksum (ckOf (some mc)) hash pj f cn hcn' hnone
    obtain ⟨hdb, herr, hcomp⟩ :=
      import_skip_general hash pj db pre suf f mc clear strat bs _ cn hnames hend hp1
    exact ⟨hdb, hcomp, fun _ => herr,
      fun e' hsome' _ => absurd hsome' (by rw [hnone]; simp)⟩
  · have hp1 : phase1File (verifOf (some mc)) (ckOf (some mc)) hash pj f =
        (some (f.name, "Checksum mismatch for " ++ f.name ++ "! File may be corrupt."),
         some (f, cn, 1)) := by
      rw [hV]
      exact phase1File_mismatch (ckOf (some mc)) hash pj f cn e hcn' hsome hne
    obtain ⟨hdb, herr, hcomp⟩ :=
      import_skip_general hash pj db pre suf f mc clear strat bs _ cn hnames hend hp1
    exact ⟨hdb, hcomp, fun hn0 => absurd hn0 (by rw [hsome]; simp),
      fun e' hsome' hne' => herr⟩

/-- Closed witness for C3: a one-file listing whose file has no entry in
the loaded manifest. -/
theorem checksum_failure_isolated_witness :
    (importCollections (fun _ => "h") (fun _ => .ok ([] : List JSValue)) []
        [⟨"c.json", "body"⟩] (some "aa  g.json") false .upsert 10).completed = true ∧
    ("c.json", "No checksum found for " ++ "c.json" ++ ".") ∈
      (importCollections (fun _ => "h") (fun _ => .ok ([] : List JSValue)) []
        [⟨"c.json", "body"⟩] (some "aa  g.json") false .upsert 10).errors :=
  ⟨(checksum_failure_isolated (fun _ => "h") (fun _ => .ok ([] : List JSValue)) [] [] []
      ⟨"c.json", "body"⟩ "aa  g.json" false .upsert 10 (by simp) (by decide) (by decide)
      (by decide) (Or.inl (by decide))).2.1,
   (checksum_failure_isolated (fun _ => "h") (fun _ => .ok ([] : List JSValue)) [] [] []
      ⟨"c.json", "body"⟩ "aa  g.json" false .upsert 10 (by simp) (by decide) (by decide)
      (by decide) (Or.inl (by decide))).2.2.1 (by decide)⟩

/- ## C1: extended-JSON encode/decode roundtrip -/

/-- C1: for every well-formed document tree (nesting of null, booleans,
in-range numbers, non-marker-keyed objects, arrays, ObjectIds with
lowercase 24-hex ids, and in-range Dates), encoding for export
(`prepareForJSONExport`, producing `{"$oid": hex}` and `{"$date": iso}`
markers) followed by decoding (`convertExtendedJSON`) returns the
original document. -/
theorem extended_json_roundtrip (v : JSValue) (h : wfDoc v = true) :
    ∃ r, prepareForJSONExport v = .ok r ∧ convertExtendedJSON r = .ok v := by
  obtain ⟨r, h1, h2, _⟩ := rt_val v h
  exact ⟨r, h1, h2⟩

/-- Closed witness for C1, at a nested document with an ObjectId and a
Date. -/
theorem extended_json_roundtrip_witness :
    wfDoc (.vobj [("a", .varr [.vnull, .vnum 3,
      .vobj [("b", .vid "0123456789abcdef01234567"), ("c", .vdate 0)]])]) = true ∧
    ∃ r, prepareForJSONExport (.vobj [("a", .varr [.vnull, .vnum 3,
        .vobj [("b", .vid "0123456789abcdef01234567"), ("c", .vdate 0)]])]) = .ok r ∧
      convertExtendedJSON r = .ok (.vobj [("a", .varr [.vnull, .vnum 3,
        .vobj [("b", .vid "0123456789abcdef01234567"), ("c", .vdate 0)]])]) :=
  ⟨by decide, extended_json_roundtrip _ (by decide)⟩
